import Mathlib

/-!
# gh-pmu: sub-issue commands and API error classification

A shallow embedding of `internal/api/errors.go`, `internal/api/client.go`, the
`sub` commands of `cmd/sub.go` and the `list` command of `cmd/list.go`; the
project queries of `internal/api/queries.go` are modelled from the
specification.  Go strings are Lean strings (valid UTF-8 text), Go `int` is
`Int`, a Go `error` interface value is `Option GoError` (`none` is `nil`).
Remote calls go through a `Client` with an explicit remote state, and a run of
a command records its output and the calls it made, in order.
-/

namespace GhPmu

/-! ## Go standard library pieces used by the sources -/

namespace strings

/-- Go `strings.Contains(s, substr)`: `substr` occurs in `s` as a contiguous run. -/
def Contains (s substr : String) : Bool :=
  decide (substr.data <:+: s.data)

/-- Pieces of `s` between occurrences of the one-character separator `sep`,
    accumulating the current piece in `cur`. -/
def splitChars (sep : Char) : List Char → List Char → List (List Char)
  | [], cur => [cur.reverse]
  | c :: cs, cur =>
    if c = sep then cur.reverse :: splitChars sep cs []
    else splitChars sep cs (c :: cur)

/-- Go `strings.Split(s, sep)` for a one-character separator (the sources only
    split on "/"). -/
def Split (s : String) (sep : Char) : List String :=
  (splitChars sep s.data []).map String.mk

end strings

/-! ## internal/api/errors.go -/

namespace api

/-- The three package-level error values of `errors.go`. -/
inductive Sentinel where
  | ErrNotAuthenticated
  | ErrNotFound
  | ErrRateLimited
  deriving DecidableEq, Repr

/-- Message given to `errors.New` for each package-level error. -/
def Sentinel.message : Sentinel → String
  | .ErrNotAuthenticated => "not authenticated - run \x27gh auth login\x27 first"
  | .ErrNotFound => "resource not found"
  | .ErrRateLimited => "API rate limit exceeded"

/-- Non-nil Go error values: the package-level errors, any other error without
    an `Unwrap` method (`errors.New`, transport errors), an error wrapping
    another one (`fmt.Errorf` with `%w`), and `*APIError`, with its `Err`
    field non-nil (`apiError`) or nil (`apiErrorNil`).  Equal values here are
    the same Go error value; an `errors.New` elsewhere with the text of a
    package-level error is a `leaf`, not that `sentinel`. -/
inductive GoError where
  | sentinel (s : Sentinel)
  | leaf (msg : String)
  | wrapped (msg : String) (inner : GoError)
  | apiError (Operation Resource : String) (Err : GoError)
  | apiErrorNil (Operation Resource : String)
  deriving DecidableEq, Repr

/-- Go `error` interface value; `none` is `nil`. -/
abbrev error := Option GoError

def ErrNotAuthenticated : GoError := .sentinel .ErrNotAuthenticated
def ErrNotFound : GoError := .sentinel .ErrNotFound
def ErrRateLimited : GoError := .sentinel .ErrRateLimited

/-- The `Error()` method.  For `*APIError` it is
    `fmt.Sprintf("%s %s: %v", e.Operation, e.Resource, e.Err)`. -/
def GoError.Error : GoError → String
  | .sentinel s => s.message
  | .leaf msg => msg
  | .wrapped msg _ => msg
  | .apiError op res err => op ++ " " ++ res ++ ": " ++ err.Error
  | .apiErrorNil op res => op ++ " " ++ res ++ ": " ++ "<nil>"

/-- The `Unwrap()` method, `none` where the error has none or it returns nil. -/
def GoError.Unwrap : GoError → error
  | .sentinel _ => none
  | .leaf _ => none
  | .wrapped _ inner => some inner
  | .apiError _ _ err => some err
  | .apiErrorNil _ _ => none

/-- Go `errors.Is` on a non-nil error: walks the `Unwrap` chain comparing each
    error with the target. -/
def GoError.Is : GoError → GoError → Bool
  | .sentinel s, target => decide (GoError.sentinel s = target)
  | .leaf msg, target => decide (GoError.leaf msg = target)
  | .wrapped msg inner, target =>
    decide (GoError.wrapped msg inner = target) || inner.Is target
  | .apiError op res err, target =>
    decide (GoError.apiError op res err = target) || err.Is target
  | .apiErrorNil op res, target => decide (GoError.apiErrorNil op res = target)

end api

open api in
/-- Go `errors.Is(err, target)`. -/
def errors.Is (err target : api.error) : Bool :=
  match err, target with
  | some e, some t => e.Is t
  | none, none => true
  | _, _ => false

/-- The unwrap chain of an error: the error itself, then what `Unwrap` returns,
    and so on until an error without `Unwrap` or a nil result. -/
def api.GoError.chain : api.GoError → List api.GoError
  | .sentinel s => [.sentinel s]
  | .leaf msg => [.leaf msg]
  | .wrapped msg inner => .wrapped msg inner :: inner.chain
  | .apiError op res err => .apiError op res err :: err.chain
  | .apiErrorNil op res => [.apiErrorNil op res]

/-- The unwrap chain of a Go `error` value; nil has an empty chain. -/
def api.unwrapChain (err : api.error) : List api.GoError :=
  match err with
  | none => []
  | some e => e.chain

/-- The value `&APIError{Operation, Resource, Err}`. -/
def api.APIError (Operation Resource : String) (Err : api.error) : api.GoError :=
  match Err with
  | some e => .apiError Operation Resource e
  | none => .apiErrorNil Operation Resource

/-- Go `fmt.Errorf(pre + "%w", err)` for a non-nil `err`: the message is the
    formatted text, and `Unwrap` gives back `err`. -/
def fmt.Errorf_w (pre : String) (err : api.GoError) : api.GoError :=
  .wrapped (pre ++ err.Error) err

/-- Go `fmt.Errorf(pre + "%w" + suf, err)` for a non-nil `err`. -/
def fmt.Errorf_w_suffix (pre : String) (err : api.GoError) (suf : String) : api.GoError :=
  .wrapped (pre ++ err.Error ++ suf) err

/-- Go `fmt.Errorf(msg)` without a `%w` verb: a plain error with that message. -/
def fmt.Errorf (msg : String) : api.GoError :=
  .leaf msg

namespace api

/-- IsNotFound checks if an error indicates a resource was not found. -/
def IsNotFound (err : error) : Bool :=
  if errors.Is err (some ErrNotFound) then true
  else match err with
    | none => false
    | some e =>
      let msg := e.Error
      strings.Contains msg "Could not resolve" || strings.Contains msg "NOT_FOUND"

/-- IsRateLimited checks if an error indicates rate limiting. -/
def IsRateLimited (err : error) : Bool :=
  if errors.Is err (some ErrRateLimited) then true
  else match err with
    | none => false
    | some e =>
      let msg := e.Error
      strings.Contains msg "rate limit" || strings.Contains msg "RATE_LIMITED"

/-- IsAuthError checks if an error indicates authentication issues. -/
def IsAuthError (err : error) : Bool :=
  if errors.Is err (some ErrNotAuthenticated) then true
  else match err with
    | none => false
    | some e =>
      let msg := e.Error
      strings.Contains msg "401" || strings.Contains msg "authentication" ||
        strings.Contains msg "not authenticated"

/-- WrapError wraps an API error with operation context. -/
def WrapError (operation resource : String) (err : error) : error :=
  match err with
  | none => none
  | some e =>
    if IsRateLimited (some e) then
      some (.apiError operation resource ErrRateLimited)
    else if IsNotFound (some e) then
      some (.apiError operation resource ErrNotFound)
    else
      some (.apiError operation resource e)

end api

/-! ## Data returned by the API client (package `api`, used by `cmd/sub.go`) -/

namespace api

structure Label where
  Name : String
  deriving DecidableEq, Repr

structure Assignee where
  Login : String
  deriving DecidableEq, Repr

structure Milestone where
  Title : String
  deriving DecidableEq, Repr

structure Repository where
  Owner : String
  Name : String
  deriving DecidableEq, Repr

/-- The fields of `api.Issue` read by the commands and the tests. -/
structure Issue where
  ID : String
  Number : Int
  Title : String
  State : String
  URL : String
  Repository : Repository
  Labels : List Label
  Assignees : List Assignee
  Milestone : Option Milestone
  deriving DecidableEq, Repr

/-- The fields of `api.SubIssue` read by `sub list`. -/
structure SubIssue where
  Number : Int
  Title : String
  State : String
  URL : String
  Repository : Repository
  deriving DecidableEq, Repr

/-- One remote call made through `api.Client`, with its arguments. -/
inductive Call where
  | GetIssue (owner repo : String) (number : Int)
  | CreateIssue (owner repo title body : String) (labels : List String)
  | AddSubIssue (parentID childID : String)
  | RemoveSubIssue (parentID childID : String)
  | GetSubIssues (owner repo : String) (number : Int)
  deriving DecidableEq, Repr

/-- Whether a call is a `CreateIssue`. -/
def Call.isCreateIssue : Call → Bool
  | .CreateIssue _ _ _ _ _ => true
  | _ => false

/-- Whether a call is an `AddSubIssue`. -/
def Call.isAddSubIssue : Call → Bool
  | .AddSubIssue _ _ => true
  | _ => false

/-- The remote behind `api.Client`: each method answers from the remote state
    `σ` and leaves a new state.  A method returning `(value, error)` answers
    with exactly one of the two. -/
structure Client (σ : Type) where
  GetIssue : String → String → Int → σ → Except GoError Issue × σ
  CreateIssue : String → String → String → String → List String → σ → Except GoError Issue × σ
  AddSubIssue : String → String → σ → error × σ
  RemoveSubIssue : String → String → σ → error × σ
  GetSubIssues : String → String → Int → σ → Except GoError (List SubIssue) × σ

end api

/-! ## cmd/sub.go -/

namespace cmd

open api

/-- The part of `config.Config` read by the commands. -/
structure Config where
  Repositories : List String
  deriving DecidableEq, Repr

/-- Local collaborators of the commands that are outside `cmd/sub.go`:
    `os.Getwd`, `config.LoadFromDirectory`, `cfg.Validate` and
    `parseIssueReference`. -/
structure Local where
  Getwd : Except GoError String
  LoadFromDirectory : String → Except GoError Config
  Validate : Config → error
  parseIssueReference : String → Except GoError (String × String × Int)

/-- What one run of a command did: the returned error, what was printed to
    stdout and stderr (one entry per print call), the remote calls in order,
    and the remote state left behind. -/
structure Run (σ : Type) where
  err : error
  stdout : List String
  stderr : List String
  calls : List Call
  state : σ

/-- A run that returns `e` before any remote call or output. -/
def Run.fail {σ : Type} (e : GoError) (s : σ) : Run σ :=
  { err := some e, stdout := [], stderr := [], calls := [], state := s }

/-- The "Load configuration" block opening every `run*` function. -/
def loadConfig (env : Local) : Except GoError Config :=
  match env.Getwd with
  | .error err => .error (fmt.Errorf_w "failed to get current directory: " err)
  | .ok cwd =>
    match env.LoadFromDirectory cwd with
    | .error err =>
      .error (fmt.Errorf_w_suffix "failed to load configuration: " err
        "\nRun \x27gh pmu init\x27 to create a configuration file")
    | .ok cfg =>
      match env.Validate cfg with
      | some err => .error (fmt.Errorf_w "invalid configuration: " err)
      | none => .ok cfg

/-- The "Default to configured repo if not specified" block. -/
def defaultRepo (cfg : Config) (owner repo : String) : Except GoError (String × String) :=
  if owner = "" ∨ repo = "" then
    match cfg.Repositories with
    | [] => .error (fmt.Errorf "no repository specified and none configured")
    | r0 :: _ =>
      match strings.Split r0 '/' with
      | [o, r] => .ok (o, r)
      | _ => .error (fmt.Errorf ("invalid repository format in config: " ++ r0))
  else .ok (owner, repo)

/-- An issue reference resolved to owner, repository and number. -/
structure IssueRef where
  owner : String
  repo : String
  number : Int
  deriving DecidableEq, Repr

/-- Lines 55-105 of `runSubAdd` (the same in `runSubRemove`, lines 522-572):
    configuration, the two issue references, and their default repository. -/
def resolveParentChild (env : Local) (arg0 arg1 : String) : Except GoError (IssueRef × IssueRef) :=
  match loadConfig env with
  | .error err => .error err
  | .ok cfg =>
    match env.parseIssueReference arg0 with
    | .error err => .error (fmt.Errorf_w "invalid parent issue: " err)
    | .ok (parentOwner, parentRepo, parentNumber) =>
      match env.parseIssueReference arg1 with
      | .error err => .error (fmt.Errorf_w "invalid child issue: " err)
      | .ok (childOwner, childRepo, childNumber) =>
        match defaultRepo cfg parentOwner parentRepo with
        | .error err => .error err
        | .ok (parentOwner, parentRepo) =>
          match defaultRepo cfg childOwner childRepo with
          | .error err => .error err
          | .ok (childOwner, childRepo) =>
            .ok (⟨parentOwner, parentRepo, parentNumber⟩, ⟨childOwner, childRepo, childNumber⟩)

/-- The error `runSubAdd` returns for a child that already has a parent. -/
def alreadyLinkedError (childNumber : Int) : GoError :=
  fmt.Errorf ("issue #" ++ toString childNumber ++
    " is already a sub-issue (issues can only have one parent)")

/-- Lines 107-147 of `runSubAdd`: the remote calls and the output.  `ToLower`
    stands for Go `strings.ToLower`. -/
def subAddRemote {σ : Type} (ToLower : String → String) (client : Client σ)
    (parent child : IssueRef) (s : σ) : Run σ :=
  let c1 := Call.GetIssue parent.owner parent.repo parent.number
  match client.GetIssue parent.owner parent.repo parent.number s with
  | (.error err, s1) =>
    { err := some (fmt.Errorf_w
        ("failed to get parent issue #" ++ toString parent.number ++ ": ") err),
      stdout := [], stderr := [], calls := [c1], state := s1 }
  | (.ok parentIssue, s1) =>
    let c2 := Call.GetIssue child.owner child.repo child.number
    match client.GetIssue child.owner child.repo child.number s1 with
    | (.error err, s2) =>
      { err := some (fmt.Errorf_w
          ("failed to get child issue #" ++ toString child.number ++ ": ") err),
        stdout := [], stderr := [], calls := [c1, c2], state := s2 }
    | (.ok childIssue, s2) =>
      let c3 := Call.AddSubIssue parentIssue.ID childIssue.ID
      match client.AddSubIssue parentIssue.ID childIssue.ID s2 with
      | (some err, s3) =>
        let errMsg := ToLower err.Error
        if strings.Contains errMsg "duplicate" || strings.Contains errMsg "only have one parent" then
          { err := some (alreadyLinkedError child.number),
            stdout := [], stderr := [], calls := [c1, c2, c3], state := s3 }
        else
          { err := some (fmt.Errorf_w "failed to add sub-issue link: " err),
            stdout := [], stderr := [], calls := [c1, c2, c3], state := s3 }
      | (none, s3) =>
        let isCrossRepo := decide (parent.owner ≠ child.owner ∨ parent.repo ≠ child.repo)
        let out :=
          if isCrossRepo then
            ["✓ Linked " ++ child.owner ++ "/" ++ child.repo ++ "#" ++ toString child.number ++
               " as sub-issue of " ++ parent.owner ++ "/" ++ parent.repo ++ "#" ++
               toString parent.number ++ "\n",
             "  Parent: " ++ parentIssue.Title ++ " (" ++ parent.owner ++ "/" ++ parent.repo ++ ")\n",
             "  Child:  " ++ childIssue.Title ++ " (" ++ child.owner ++ "/" ++ child.repo ++ ")\n"]
          else
            ["✓ Linked issue #" ++ toString child.number ++ " as sub-issue of #" ++
               toString parent.number ++ "\n",
             "  Parent: " ++ parentIssue.Title ++ "\n",
             "  Child:  " ++ childIssue.Title ++ "\n"]
        { err := none, stdout := out, stderr := [], calls := [c1, c2, c3], state := s3 }

/-- The command `sub add <parent-issue> <child-issue>`. -/
def runSubAdd {σ : Type} (ToLower : String → String) (env : Local) (client : Client σ)
    (arg0 arg1 : String) (s : σ) : Run σ :=
  match resolveParentChild env arg0 arg1 with
  | .error err => Run.fail err s
  | .ok (parent, child) => subAddRemote ToLower client parent child s

/-- The error `runSubRemove` returns when the child is not linked to the parent. -/
def notLinkedError (childNumber parentNumber : Int) : GoError :=
  fmt.Errorf ("issue #" ++ toString childNumber ++ " is not a sub-issue of #" ++
    toString parentNumber)

/-- Lines 574-605 of `runSubRemove`: the remote calls and the output. -/
def subRemoveRemote {σ : Type} (ToLower : String → String) (client : Client σ)
    (parent child : IssueRef) (s : σ) : Run σ :=
  let c1 := Call.GetIssue parent.owner parent.repo parent.number
  match client.GetIssue parent.owner parent.repo parent.number s with
  | (.error err, s1) =>
    { err := some (fmt.Errorf_w
        ("failed to get parent issue #" ++ toString parent.number ++ ": ") err),
      stdout := [], stderr := [], calls := [c1], state := s1 }
  | (.ok parentIssue, s1) =>
    let c2 := Call.GetIssue child.owner child.repo child.number
    match client.GetIssue child.owner child.repo child.number s1 with
    | (.error err, s2) =>
      { err := some (fmt.Errorf_w
          ("failed to get child issue #" ++ toString child.number ++ ": ") err),
        stdout := [], stderr := [], calls := [c1, c2], state := s2 }
    | (.ok childIssue, s2) =>
      let c3 := Call.RemoveSubIssue parentIssue.ID childIssue.ID
      match client.RemoveSubIssue parentIssue.ID childIssue.ID s2 with
      | (some err, s3) =>
        let errMsg := ToLower err.Error
        if strings.Contains errMsg "not a sub-issue" || strings.Contains errMsg "not found" then
          { err := some (notLinkedError child.number parent.number),
            stdout := [], stderr := [], calls := [c1, c2, c3], state := s3 }
        else
          { err := some (fmt.Errorf_w "failed to remove sub-issue link: " err),
            stdout := [], stderr := [], calls := [c1, c2, c3], state := s3 }
      | (none, s3) =>
        { err := none,
          stdout :=
            ["✓ Removed sub-issue link: #" ++ toString child.number ++
               " is no longer a sub-issue of #" ++ toString parent.number ++ "\n",
             "  Former parent: " ++ parentIssue.Title ++ "\n",
             "  Unlinked:      " ++ childIssue.Title ++ "\n"],
          stderr := [], calls := [c1, c2, c3], state := s3 }

/-- The command `sub remove <parent-issue> <child-issue>`. -/
def runSubRemove {σ : Type} (ToLower : String → String) (env : Local) (client : Client σ)
    (arg0 arg1 : String) (s : σ) : Run σ :=
  match resolveParentChild env arg0 arg1 with
  | .error err => Run.fail err s
  | .ok (parent, child) => subRemoveRemote ToLower client parent child s

/-- The options of `sub create`. -/
structure subCreateOptions where
  parent : String
  title : String
  body : String
  repo : String
  inheritLabels : Bool
  inheritAssign : Bool
  inheritMilestone : Bool
  deriving DecidableEq, Repr

/-- Lines 203-235 of `runSubCreate`: configuration, the parent reference and
    its default repository. -/
def resolveParent (env : Local) (parentArg : String) : Except GoError IssueRef :=
  match loadConfig env with
  | .error err => .error err
  | .ok cfg =>
    match env.parseIssueReference parentArg with
    | .error err => .error (fmt.Errorf_w "invalid parent issue: " err)
    | .ok (parentOwner, parentRepo, parentNumber) =>
      match defaultRepo cfg parentOwner parentRepo with
      | .error err => .error err
      | .ok (parentOwner, parentRepo) => .ok ⟨parentOwner, parentRepo, parentNumber⟩

/-- The target of `sub create`: owner and repository of the new issue, and the
    `isCrossRepo` flag. -/
structure Target where
  targetOwner : String
  targetRepo : String
  isCrossRepo : Bool
  deriving DecidableEq, Repr

/-- Lines 237-251 of `runSubCreate`: determine the target repository. -/
def targetRepository (repoFlag : String) (parent : IssueRef) : Except GoError Target :=
  if repoFlag ≠ "" then
    match strings.Split repoFlag '/' with
    | [targetOwner, targetRepo] =>
      .ok ⟨targetOwner, targetRepo,
        decide (targetOwner ≠ parent.owner ∨ targetRepo ≠ parent.repo)⟩
    | _ => .error (fmt.Errorf ("invalid repository format: " ++ repoFlag ++
        " (expected owner/repo)"))
  else .ok ⟨parent.owner, parent.repo, false⟩

/-- Lines 262-268 of `runSubCreate`: build the labels list. -/
def buildLabels (isCrossRepo inheritLabels : Bool) (parentIssue : Issue) : List String :=
  if !isCrossRepo && inheritLabels && decide (parentIssue.Labels.length > 0) then
    parentIssue.Labels.foldl (fun labels l => labels ++ [l.Name]) []
  else []

/-- Lines 253-304 of `runSubCreate`: the remote calls and the output. -/
def subCreateRemote {σ : Type} (client : Client σ) (opts : subCreateOptions)
    (parent : IssueRef) (target : Target) (s : σ) : Run σ :=
  let c1 := Call.GetIssue parent.owner parent.repo parent.number
  match client.GetIssue parent.owner parent.repo parent.number s with
  | (.error err, s1) =>
    { err := some (fmt.Errorf_w
        ("failed to get parent issue #" ++ toString parent.number ++ ": ") err),
      stdout := [], stderr := [], calls := [c1], state := s1 }
  | (.ok parentIssue, s1) =>
    let labels := buildLabels target.isCrossRepo opts.inheritLabels parentIssue
    let c2 := Call.CreateIssue target.targetOwner target.targetRepo opts.title opts.body labels
    match client.CreateIssue target.targetOwner target.targetRepo opts.title opts.body labels s1 with
    | (.error err, s2) =>
      { err := some (fmt.Errorf_w
          ("failed to create issue in " ++ target.targetOwner ++ "/" ++ target.targetRepo ++ ": ")
          err),
        stdout := [], stderr := [], calls := [c1, c2], state := s2 }
    | (.ok newIssue, s2) =>
      let c3 := Call.AddSubIssue parentIssue.ID newIssue.ID
      match client.AddSubIssue parentIssue.ID newIssue.ID s2 with
      | (some err, s3) =>
        { err := none,
          stdout :=
            ["Created issue #" ++ toString newIssue.Number ++ ": " ++ newIssue.Title ++ "\n",
             newIssue.URL ++ "\n"],
          stderr :=
            ["Warning: Issue created but failed to link as sub-issue: " ++ err.Error ++ "\n"],
          calls := [c1, c2, c3], state := s3 }
      | (none, s3) =>
        let confirm :=
          if target.isCrossRepo then
            "✓ Created cross-repo sub-issue " ++ target.targetOwner ++ "/" ++ target.targetRepo ++
              "#" ++ toString newIssue.Number ++ " under parent " ++ parent.owner ++ "/" ++
              parent.repo ++ "#" ++ toString parent.number ++ "\n"
          else
            "✓ Created sub-issue #" ++ toString newIssue.Number ++ " under parent #" ++
              toString parent.number ++ "\n"
        let repoLine :=
          if target.isCrossRepo then
            ["  Repo:   " ++ target.targetOwner ++ "/" ++ target.targetRepo ++ "\n"]
          else []
        let labelLine :=
          if labels.length > 0 then
            ["  Labels: " ++ String.intercalate ", " labels ++ " (inherited)\n"]
          else []
        { err := none,
          stdout :=
            [confirm, "  Title:  " ++ newIssue.Title ++ "\n",
              "  Parent: " ++ parentIssue.Title ++ "\n"] ++ repoLine ++ labelLine ++
              ["🔗 " ++ newIssue.URL ++ "\n"],
          stderr := [], calls := [c1, c2, c3], state := s3 }

/-- The command `sub create`. -/
def runSubCreate {σ : Type} (env : Local) (client : Client σ) (opts : subCreateOptions)
    (s : σ) : Run σ :=
  match resolveParent env opts.parent with
  | .error err => Run.fail err s
  | .ok parent =>
    match targetRepository opts.repo parent with
    | .error err => Run.fail err s
    | .ok target => subCreateRemote client opts parent target s

structure SubListParent where
  Number : Int
  Title : String
  deriving DecidableEq, Repr

structure SubListItem where
  Number : Int
  Title : String
  State : String
  URL : String
  Repository : String
  deriving DecidableEq, Repr

structure SubListSummary where
  Total : Int
  Open : Int
  Closed : Int
  deriving DecidableEq, Repr

/-- SubListJSONOutput represents the JSON output for sub list command. -/
structure SubListJSONOutput where
  Parent : SubListParent
  SubIssues : List SubListItem
  Summary : SubListSummary
  deriving DecidableEq, Repr

/-- One pass of the loop of `outputSubListJSON` (lines 433-451). -/
def subListJSONStep (output : SubListJSONOutput) (sub : SubIssue) : SubListJSONOutput :=
  let repoStr :=
    if sub.Repository.Owner ≠ "" ∧ sub.Repository.Name ≠ "" then
      sub.Repository.Owner ++ "/" ++ sub.Repository.Name
    else ""
  let items := output.SubIssues ++
    [{ Number := sub.Number, Title := sub.Title, State := sub.State, URL := sub.URL,
       Repository := repoStr }]
  if sub.State = "CLOSED" then
    { Parent := output.Parent, SubIssues := items,
      Summary := { Total := output.Summary.Total, Open := output.Summary.Open,
                   Closed := output.Summary.Closed + 1 } }
  else
    { Parent := output.Parent, SubIssues := items,
      Summary := { Total := output.Summary.Total, Open := output.Summary.Open + 1,
                   Closed := output.Summary.Closed } }

/-- The value `outputSubListJSON` hands to the JSON encoder. -/
def outputSubListJSON (subIssues : List SubIssue) (parent : Issue) : SubListJSONOutput :=
  subIssues.foldl subListJSONStep
    { Parent := { Number := parent.Number, Title := parent.Title },
      SubIssues := [],
      Summary := { Total := (subIssues.length : Int), Open := 0, Closed := 0 } }

/-- One pass of the printing loop of `outputSubListTable` (lines 478-492):
    the closed count so far and the lines printed so far. -/
def subListTableStep (hasCrossRepo : Bool) (acc : Int × List String) (sub : SubIssue) :
    Int × List String :=
  let state := if sub.State = "CLOSED" then "[x]" else "[ ]"
  let closedCount := if sub.State = "CLOSED" then acc.1 + 1 else acc.1
  let line :=
    if hasCrossRepo = true ∧ sub.Repository.Owner ≠ "" ∧ sub.Repository.Name ≠ "" then
      "  " ++ state ++ " " ++ (sub.Repository.Owner ++ "/" ++ sub.Repository.Name) ++ "#" ++
        toString sub.Number ++ " - " ++ sub.Title ++ "\n"
    else
      "  " ++ state ++ " #" ++ toString sub.Number ++ " - " ++ sub.Title ++ "\n"
  (closedCount, acc.2 ++ [line])

/-- The "Progress" line of `outputSubListTable`. -/
def progressLine (closedCount total : Int) : String :=
  "\nProgress: " ++ toString closedCount ++ "/" ++ toString total ++ " complete\n"

/-- What `outputSubListTable` prints to stdout, one entry per print call. -/
def outputSubListTable (subIssues : List SubIssue) (parent : Issue) : List String :=
  let header := "Sub-issues of #" ++ toString parent.Number ++ ": " ++ parent.Title ++ "\n\n"
  if subIssues.length = 0 then
    [header, "No sub-issues found.\n"]
  else
    let parentRepo := parent.Repository.Owner ++ "/" ++ parent.Repository.Name
    let hasCrossRepo := subIssues.any (fun sub =>
      let subRepo := sub.Repository.Owner ++ "/" ++ sub.Repository.Name
      decide (subRepo ≠ parentRepo ∧ subRepo ≠ "/"))
    let res := subIssues.foldl (subListTableStep hasCrossRepo) (0, [])
    [header] ++ res.2 ++ [progressLine res.1 (subIssues.length : Int)]

end cmd

/-! ## cmd/list.go -/

namespace api

/-- One field value of a project item: the field name and its value. -/
structure FieldValue where
  Field : String
  Value : String
  deriving DecidableEq, Repr

/-- The fields of `api.ProjectItem` read by `list`; `Issue` may be nil. -/
structure ProjectItem where
  ID : String
  Issue : Option Issue
  FieldValues : List FieldValue
  deriving DecidableEq, Repr

end api

namespace cmd

open api

/-- The inner loop of `filterByFieldValue` (lines 108-113): whether some field
    value matches, stopping at the first one.  `EqualFold` stands for Go
    `strings.EqualFold`. -/
def fieldValueMatches (EqualFold : String → String → Bool) (fieldName value : String) :
    List FieldValue → Bool
  | [] => false
  | fv :: rest =>
    if EqualFold fv.Field fieldName && EqualFold fv.Value value then true
    else fieldValueMatches EqualFold fieldName value rest

/-- filterByFieldValue filters items by a specific field value. -/
def filterByFieldValue (EqualFold : String → String → Bool) (items : List ProjectItem)
    (fieldName value : String) : List ProjectItem :=
  items.foldl (fun filtered item =>
    if fieldValueMatches EqualFold fieldName value item.FieldValues then filtered ++ [item]
    else filtered) []

/-- getFieldValue gets a field value from an item. -/
def getFieldValue (EqualFold : String → String → Bool) (item : ProjectItem)
    (fieldName : String) : String :=
  match item.FieldValues.find? (fun fv => EqualFold fv.Field fieldName) with
  | some fv => fv.Value
  | none => ""

/-- A Go `map[string]string`, as its lookup. -/
abbrev StringMap := String → Option String

/-- The empty map, `make(map[string]string)`. -/
def StringMap.empty : StringMap := fun _ => none

/-- The assignment `m[key] = value`. -/
def StringMap.set (m : StringMap) (key value : String) : StringMap :=
  fun k => if k = key then some value else m k

/-- JSONItem represents an item in JSON output. -/
structure JSONItem where
  Number : Int
  Title : String
  State : String
  URL : String
  Repository : String
  Assignees : List String
  FieldValues : StringMap

/-- JSONOutput represents the JSON output structure. -/
structure JSONOutput where
  Items : List JSONItem

/-- The body of the loop of `outputJSON` for an item with a non-nil issue
    (lines 203-219). -/
def jsonItem (item : ProjectItem) (issue : Issue) : JSONItem :=
  { Number := issue.Number,
    Title := issue.Title,
    State := issue.State,
    URL := issue.URL,
    Repository := issue.Repository.Owner ++ "/" ++ issue.Repository.Name,
    Assignees := issue.Assignees.foldl (fun assignees a => assignees ++ [a.Login]) [],
    FieldValues := item.FieldValues.foldl (fun m fv => m.set fv.Field fv.Value)
      StringMap.empty }

/-- The value `outputJSON` hands to the JSON encoder. -/
def outputJSON (items : List ProjectItem) : JSONOutput :=
  items.foldl (fun output item =>
    match item.Issue with
    | none => output
    | some issue => { Items := output.Items ++ [jsonItem item issue] }) { Items := [] }

end cmd

/-! ## cmd/list.go: the table -/

namespace cmd

open api

/-- The bytes of a Go string holding the text `s` (its UTF-8 encoding); Go `len`
    and slicing count these bytes. -/
def utf8Bytes (s : String) : List UInt8 :=
  s.data.flatMap String.utf8EncodeChar

/-- Lines 157-161 of `outputTable`: truncate title if too long. -/
def truncateTitle (title : List UInt8) : List UInt8 :=
  if title.length > 50 then title.take 47 ++ utf8Bytes "..." else title

/-- The cells of one row written by `outputTable`. -/
structure TableRow where
  Number : Int
  Title : List UInt8
  Status : String
  Priority : String
  Assignees : String
  deriving DecidableEq, Repr

/-- What `outputTable` writes: the "No issues found" line, or the header line
    and the rows handed to the tab writer. -/
inductive TableOutput where
  | noIssues
  | table (header : String) (rows : List TableRow)
  deriving DecidableEq, Repr

/-- The body of the loop of `outputTable` for an item with a non-nil issue
    (lines 143-169). -/
def tableRow (EqualFold : String → String → Bool) (item : ProjectItem) (issue : Issue) :
    TableRow :=
  let status := getFieldValue EqualFold item "Status"
  let priority := getFieldValue EqualFold item "Priority"
  let assignees := issue.Assignees.foldl (fun assignees a => assignees ++ [a.Login]) []
  let assigneeStr := String.intercalate ", " assignees
  let assigneeStr := if assigneeStr = "" then "-" else assigneeStr
  { Number := issue.Number,
    Title := truncateTitle (utf8Bytes issue.Title),
    Status := status,
    Priority := priority,
    Assignees := assigneeStr }

/-- outputTable outputs items in a table format. -/
def outputTable (EqualFold : String → String → Bool) (items : List ProjectItem) : TableOutput :=
  if items.length = 0 then .noIssues
  else
    .table "NUMBER\tTITLE\tSTATUS\tPRIORITY\tASSIGNEES\n"
      (items.foldl (fun rows item =>
        match item.Issue with
        | none => rows
        | some issue => rows ++ [tableRow EqualFold item issue]) [])

/-- The rows written by `outputTable`, none when it prints "No issues found". -/
def TableOutput.rows : TableOutput → List TableRow
  | .noIssues => []
  | .table _ rows => rows

/-! ## cmd/sub.go: the JSON document of `sub list --json` -/

/-- A JSON value as written by `encoding/json`; an object keeps its fields in
    the order they are written. -/
inductive JSON where
  | num (n : Int)
  | str (s : String)
  | arr (elems : List JSON)
  | obj (fields : List (String × JSON))

/-- The field names of a JSON object, in order; empty for other values. -/
def JSON.keys : JSON → List String
  | .obj fields => fields.map (fun f => f.1)
  | _ => []

/-- The value of a field of a JSON object. -/
def JSON.get? : JSON → String → Option JSON
  | .obj fields, key => (fields.find? (fun f => f.1 = key)).map (fun f => f.2)
  | _, _ => none

/-- Encoding of `SubListParent`, by its `json` tags. -/
def SubListParent.toJSON (p : SubListParent) : JSON :=
  .obj [("number", .num p.Number), ("title", .str p.Title)]

/-- Encoding of `SubListItem`, by its `json` tags. -/
def SubListItem.toJSON (i : SubListItem) : JSON :=
  .obj [("number", .num i.Number), ("title", .str i.Title), ("state", .str i.State),
        ("url", .str i.URL), ("repository", .str i.Repository)]

/-- Encoding of `SubListSummary`, by its `json` tags. -/
def SubListSummary.toJSON (s : SubListSummary) : JSON :=
  .obj [("total", .num s.Total), ("open", .num s.Open), ("closed", .num s.Closed)]

/-- Encoding of `SubListJSONOutput`, by its `json` tags (lines 396-400). -/
def SubListJSONOutput.toJSON (o : SubListJSONOutput) : JSON :=
  .obj [("parent", o.Parent.toJSON),
        ("subIssues", .arr (o.SubIssues.map SubListItem.toJSON)),
        ("summary", o.Summary.toJSON)]

end cmd

/-! ## internal/api/client.go -/

namespace api

/-- FeatureSubIssues is the GitHub API preview header for sub-issues. -/
def FeatureSubIssues : String := "sub_issues"

/-- FeatureIssueTypes is the GitHub API preview header for issue types. -/
def FeatureIssueTypes : String := "issue_types"

/-- ClientOptions configures the API client. -/
structure ClientOptions where
  Host : String
  EnableSubIssues : Bool
  EnableIssueTypes : Bool
  deriving DecidableEq, Repr

/-- joinFeatures joins feature names with commas. -/
def joinFeatures (features : List String) : String :=
  match features with
  | [] => ""
  | first :: rest => rest.foldl (fun result f => result ++ ("," ++ f)) first

/-- The `featureHeaders` list built by `NewClientWithOptions` (lines 46-52). -/
def NewClientWithOptions.featureHeaders (opts : ClientOptions) : List String :=
  let featureHeaders : List String := []
  let featureHeaders :=
    if opts.EnableSubIssues then featureHeaders ++ [FeatureSubIssues] else featureHeaders
  let featureHeaders :=
    if opts.EnableIssueTypes then featureHeaders ++ [FeatureIssueTypes] else featureHeaders
  featureHeaders

/-- The header map built by `NewClientWithOptions` (lines 42-57). -/
def NewClientWithOptions.headers (opts : ClientOptions) : cmd.StringMap :=
  let featureHeaders := NewClientWithOptions.featureHeaders opts
  if featureHeaders.length > 0 then
    cmd.StringMap.set cmd.StringMap.empty "X-Github-Next" (joinFeatures featureHeaders)
  else cmd.StringMap.empty

/-- The header map of `NewClient`, which enables both feature previews. -/
def NewClient.headers : cmd.StringMap :=
  NewClientWithOptions.headers { Host := "", EnableSubIssues := true, EnableIssueTypes := true }

end api

/-! ## internal/api: project queries

`GetProject`, `ListProjects` and `GetProjectItems` live in
`internal/api/queries.go`; they are modelled from the specification and from
`internal/api/queries_test.go`. -/

namespace api

/-- The owner of a project: "User" or "Organization", and the login. -/
structure ProjectOwner where
  Type_ : String
  Login : String
  deriving DecidableEq, Repr

/-- The fields of `api.Project` read by the tests. -/
structure Project where
  ID : String
  Number : Int
  Title : String
  URL : String
  Closed : Bool
  Owner : ProjectOwner
  deriving DecidableEq, Repr

/-- What a project query answers about one project. -/
structure ProjectNode where
  ID : String
  Number : Int
  Title : String
  URL : String
  Closed : Bool
  deriving DecidableEq, Repr

/-- One page of a paginated query: the nodes and the `PageInfo`. -/
structure Page (α : Type) where
  Nodes : List α
  HasNextPage : Bool
  EndCursor : String
  deriving DecidableEq, Repr

/-- ProjectItemsFilter restricts project items to one repository
    ("owner/name"). -/
structure ProjectItemsFilter where
  Repository : String
  deriving DecidableEq, Repr

/-- One GraphQL query, by name, with the variables that matter; the cursor of
    `GetProjectItems` is absent (nil) or a cursor string. -/
inductive Query where
  | GetUserProject (owner : String) (number : Int)
  | GetOrgProject (owner : String) (number : Int)
  | ListUserProjects (owner : String)
  | ListOrgProjects (owner : String)
  | GetProjectItems (projectID : String) (cursor : Option String)
  deriving DecidableEq, Repr

/-- The remote answering the project queries from a remote state `σ`. -/
structure GraphQL (σ : Type) where
  GetUserProject : String → Int → σ → Except GoError ProjectNode × σ
  GetOrgProject : String → Int → σ → Except GoError ProjectNode × σ
  ListUserProjects : String → σ → Except GoError (List ProjectNode) × σ
  ListOrgProjects : String → σ → Except GoError (List ProjectNode) × σ
  GetProjectItems : String → Option String → σ → Except GoError (Page ProjectItem) × σ

/-- What one call of a query function did: its result (`.error e` stands for
    the Go return `(nil, e)`), the queries issued in order, and the remote
    state left behind. -/
structure Outcome (α σ : Type) where
  result : Except GoError α
  queries : List Query
  state : σ

/-- The project of a query answer, with its owner. -/
def ProjectNode.toProject (n : ProjectNode) (ownerType login : String) : Project :=
  { ID := n.ID, Number := n.Number, Title := n.Title, URL := n.URL, Closed := n.Closed,
    Owner := { Type_ := ownerType, Login := login } }

/-- Modelled from the spec: `GetProject` of `internal/api/queries.go`, which is
    missing from the sources.  Section 4.1: "tries user semantics first; on any
    failure, retries under organization semantics; returns the first success.
    If both fail, returns a combined error reporting both causes."  The error
    text starts "failed to get project" (`TestGetProject_BothFail`); `causes`
    renders the two causes after it. -/
def GetProject {σ : Type} (causes : GoError → GoError → String) (gql : GraphQL σ)
    (owner : String) (number : Int) (s : σ) : Outcome Project σ :=
  match gql.GetUserProject owner number s with
  | (.ok node, s1) =>
    { result := .ok (node.toProject "User" owner),
      queries := [Query.GetUserProject owner number], state := s1 }
  | (.error userErr, s1) =>
    match gql.GetOrgProject owner number s1 with
    | (.ok node, s2) =>
      { result := .ok (node.toProject "Organization" owner),
        queries := [Query.GetUserProject owner number, Query.GetOrgProject owner number],
        state := s2 }
    | (.error orgErr, s2) =>
      { result := .error (fmt.Errorf ("failed to get project" ++ causes userErr orgErr)),
        queries := [Query.GetUserProject owner number, Query.GetOrgProject owner number],
        state := s2 }

/-- The open projects among the nodes of a listing, in order. -/
def openProjects (nodes : List ProjectNode) (ownerType login : String) : List Project :=
  (nodes.filter (fun n => !n.Closed)).map (fun n => n.toProject ownerType login)

/-- Modelled from the spec: `ListProjects` of `internal/api/queries.go`, which is
    missing from the sources.  Section 4.1: it "filters out closed projects and
    falls back to organization listing when the user listing succeeds with zero
    results (not only on error)"; the results of a listing are its open
    projects.  When the organization listing fails too, the error text starts
    "failed to list projects" (`TestListProjects_BothFail`); `causes` renders the
    user-listing error, if any, and the organization-listing error after it. -/
def ListProjects {σ : Type} (causes : Option GoError → GoError → String) (gql : GraphQL σ)
    (owner : String) (s : σ) : Outcome (List Project) σ :=
  let orgListing (userErr : Option GoError) (s1 : σ) : Outcome (List Project) σ :=
    match gql.ListOrgProjects owner s1 with
    | (.ok nodes, s2) =>
      { result := .ok (openProjects nodes "Organization" owner),
        queries := [Query.ListUserProjects owner, Query.ListOrgProjects owner], state := s2 }
    | (.error orgErr, s2) =>
      { result := .error (fmt.Errorf ("failed to list projects" ++ causes userErr orgErr)),
        queries := [Query.ListUserProjects owner, Query.ListOrgProjects owner], state := s2 }
  match gql.ListUserProjects owner s with
  | (.ok nodes, s1) =>
    if (openProjects nodes "User" owner).length > 0 then
      { result := .ok (openProjects nodes "User" owner),
        queries := [Query.ListUserProjects owner], state := s1 }
    else orgListing none s1
  | (.error userErr, s1) => orgListing (some userErr) s1

/-- Modelled from the spec: the `keep` predicate of `GetProjectItems`: an item
    is kept when it holds an issue and, with a filter, the issue's repository
    "owner/name" is the filter's. -/
def keepItem (filter : Option ProjectItemsFilter) (item : ProjectItem) : Bool :=
  match item.Issue with
  | none => false
  | some issue =>
    match filter with
    | none => true
    | some f => decide (issue.Repository.Owner ++ "/" ++ issue.Repository.Name = f.Repository)

/-- Modelled from the spec: the page loop of `GetProjectItems` of
    `internal/api/queries.go`, which is missing from the sources.  Section 4.2:
    "Calls fetch with absent cursor, keeps matching items, and continues while
    hasNext, threading the returned cursor into the next call, until a page
    reports hasNext=false.  Any fetch error aborts immediately with no partial
    result exposed."  The error wraps the failing query's error after
    "failed to get project items: " (`TestGetProjectItems_QueryError`,
    `TestGetProjectItems_Pagination_ErrorOnSecondPage`).  `fuel` bounds the
    number of queries; `none` means the bound was reached. -/
def collectItems {σ : Type} (gql : GraphQL σ) (projectID : String)
    (filter : Option ProjectItemsFilter) :
    Nat → Option String → σ → List ProjectItem → List Query →
      Option (Outcome (List ProjectItem) σ)
  | 0, _, _, _, _ => none
  | fuel + 1, cursor, s, items, queries =>
    match gql.GetProjectItems projectID cursor s with
    | (.error err, s1) =>
      some { result := .error (fmt.Errorf_w "failed to get project items: " err),
             queries := queries ++ [Query.GetProjectItems projectID cursor], state := s1 }
    | (.ok page, s1) =>
      if page.HasNextPage then
        collectItems gql projectID filter fuel (some page.EndCursor) s1
          (items ++ page.Nodes.filter (keepItem filter))
          (queries ++ [Query.GetProjectItems projectID cursor])
      else
        some { result := .ok (items ++ page.Nodes.filter (keepItem filter)),
               queries := queries ++ [Query.GetProjectItems projectID cursor], state := s1 }

/-- Modelled from the spec: `GetProjectItems` of `internal/api/queries.go`, which
    is missing from the sources: the page loop started with an absent cursor
    and nothing collected. -/
def GetProjectItems {σ : Type} (gql : GraphQL σ) (projectID : String)
    (filter : Option ProjectItemsFilter) (fuel : Nat) (s : σ) :
    Option (Outcome (List ProjectItem) σ) :=
  collectItems gql projectID filter fuel none s [] []

/-- The remote answers the successive page queries of `GetProjectItems`, started
    at `cursor` in state `s`, with the given pages: every page but the last
    has `HasNextPage`, the last has not, and each query after the first carries
    the `EndCursor` of the page before. -/
def AnswersPages {σ : Type} (gql : GraphQL σ) (projectID : String) :
    Option String → σ → List (Page ProjectItem) → σ → Prop
  | _, _, [], _ => False
  | cursor, s, [last], s' =>
    gql.GetProjectItems projectID cursor s = (.ok last, s') ∧ last.HasNextPage = false
  | cursor, s, page :: next :: rest, s' =>
    ∃ s1, gql.GetProjectItems projectID cursor s = (.ok page, s1) ∧ page.HasNextPage = true ∧
      AnswersPages gql projectID (some page.EndCursor) s1 (next :: rest) s'

/-- The remote answers the successive page queries with the given pages, all
    with `HasNextPage`, and then fails the next query with `err`. -/
def FailsAfterPages {σ : Type} (gql : GraphQL σ) (projectID : String) :
    Option String → σ → List (Page ProjectItem) → GoError → σ → Prop
  | cursor, s, [], err, s' => gql.GetProjectItems projectID cursor s = (.error err, s')
  | cursor, s, page :: rest, err, s' =>
    ∃ s1, gql.GetProjectItems projectID cursor s = (.ok page, s1) ∧ page.HasNextPage = true ∧
      FailsAfterPages gql projectID (some page.EndCursor) s1 rest err s'

/-- The cursors of the queries for a sequence of pages: absent first, then the
    `EndCursor` of each page but the last. -/
def pageCursors (pages : List (Page ProjectItem)) : List (Option String) :=
  none :: pages.dropLast.map (fun p => some p.EndCursor)

end api

/-! ## cmd/list.go: the command -/

namespace cmd

open api

/-- The options of `list`. -/
structure listOptions where
  status : String
  priority : String
  json : Bool
  deriving DecidableEq, Repr

/-- The project of the configuration, `cfg.Project`. -/
structure ProjectConfig where
  Owner : String
  Number : Int
  deriving DecidableEq, Repr

/-- The part of `config.Config` read by `list`. -/
structure ListConfig where
  Project : ProjectConfig
  Repositories : List String
  deriving DecidableEq, Repr

/-- Local collaborators of `list` that are outside `cmd/list.go`: `os.Getwd`,
    `config.LoadFromDirectory`, `cfg.Validate` and `cfg.ResolveFieldValue`
    (which maps a field and an alias such as "in_progress" to the field value). -/
structure ListLocal where
  Getwd : Except GoError String
  LoadFromDirectory : String → Except GoError ListConfig
  Validate : ListConfig → error
  ResolveFieldValue : ListConfig → String → String → String

/-- The remote behind the two `api.Client` methods called by `list`, answering
    from the remote state `σ`. -/
structure ListClient (σ : Type) where
  GetProject : String → Int → σ → Except GoError Project × σ
  GetProjectItems : String → Option ProjectItemsFilter → σ →
    Except GoError (List ProjectItem) × σ

/-- What `list` writes: the JSON document or the table. -/
inductive ListOutput where
  | json (output : JSONOutput)
  | table (output : TableOutput)

/-- What one run of `list` did: the returned error, what it wrote, and the
    remote state left behind. -/
structure ListRun (σ : Type) where
  err : error
  output : Option ListOutput
  state : σ

/-- Lines 45-59 of `runList`: load and validate the configuration. -/
def loadListConfig (env : ListLocal) : Except GoError ListConfig :=
  match env.Getwd with
  | .error err => .error (fmt.Errorf_w "failed to get current directory: " err)
  | .ok cwd =>
    match env.LoadFromDirectory cwd with
    | .error err =>
      .error (fmt.Errorf_w_suffix "failed to load configuration: " err
        "\nRun \x27gh pm init\x27 to create a configuration file")
    | .ok cfg =>
      match env.Validate cfg with
      | some err => .error (fmt.Errorf_w "invalid configuration: " err)
      | none => .ok cfg

/-- Lines 70-76 of `runList`: the repository filter, nil without a configured
    repository. -/
def buildFilter (cfg : ListConfig) : Option ProjectItemsFilter :=
  match cfg.Repositories with
  | [] => none
  | r0 :: _ => some { Repository := r0 }

/-- Lines 84-94 of `runList`: apply the status filter, then the priority
    filter. -/
def applyFilters (EqualFold : String → String → Bool) (env : ListLocal) (cfg : ListConfig)
    (opts : listOptions) (items : List ProjectItem) : List ProjectItem :=
  let items :=
    if opts.status ≠ "" then
      filterByFieldValue EqualFold items "Status" (env.ResolveFieldValue cfg "status" opts.status)
    else items
  let items :=
    if opts.priority ≠ "" then
      filterByFieldValue EqualFold items "Priority"
        (env.ResolveFieldValue cfg "priority" opts.priority)
    else items
  items

/-- The command `list`. -/
def runList {σ : Type} (EqualFold : String → String → Bool) (env : ListLocal)
    (client : ListClient σ) (opts : listOptions) (s : σ) : ListRun σ :=
  match loadListConfig env with
  | .error err => { err := some err, output := none, state := s }
  | .ok cfg =>
    match client.GetProject cfg.Project.Owner cfg.Project.Number s with
    | (.error err, s1) =>
      { err := some (fmt.Errorf_w "failed to get project: " err), output := none, state := s1 }
    | (.ok project, s1) =>
      match client.GetProjectItems project.ID (buildFilter cfg) s1 with
      | (.error err, s2) =>
        { err := some (fmt.Errorf_w "failed to get project items: " err), output := none,
          state := s2 }
      | (.ok items, s2) =>
        let items := applyFilters EqualFold env cfg opts items
        if opts.json then
          { err := none, output := some (.json (outputJSON items)), state := s2 }
        else
          { err := none, output := some (.table (outputTable EqualFold items)), state := s2 }

end cmd

/-! ## A small concrete remote, for evaluating the commands -/

namespace demo

open api cmd

/-- ASCII lower-casing; Go `strings.ToLower` agrees with it on ASCII text. -/
def asciiToLower (s : String) : String :=
  String.mk (s.data.map Char.toLower)

/-- Local collaborators of a checkout configured for the repository "octo/app". -/
def env : Local :=
  { Getwd := .ok "/work",
    LoadFromDirectory := fun _ => .ok { Repositories := ["octo/app"] },
    Validate := fun _ => none,
    parseIssueReference := fun ref =>
      if ref = "10" then .ok ("", "", 10)
      else if ref = "15" then .ok ("", "", 15)
      else if ref = "999999" then .ok ("", "", 999999)
      else .error (GoError.leaf ("invalid issue reference: " ++ ref)) }

/-- Issue `number` of "octo/app". -/
def issue (number : Int) (title : String) : Issue :=
  { ID := "I_" ++ toString number, Number := number, Title := title, State := "OPEN",
    URL := "https://github.com/octo/app/issues/" ++ toString number,
    Repository := { Owner := "octo", Name := "app" },
    Labels := [{ Name := "bug" }, { Name := "pm-tracked" }],
    Assignees := [{ Login := "alice" }],
    Milestone := some { Title := "v1.0" } }

/-- A remote holding issues 10 and 15 of "octo/app"; its state is the list of
    (parent, child) links.  A child has at most one parent. -/
def client : Client (List (String × String)) :=
  { GetIssue := fun owner repo number links =>
      if owner = "octo" ∧ repo = "app" ∧ number = 10 then (.ok (issue 10 "Epic"), links)
      else if owner = "octo" ∧ repo = "app" ∧ number = 15 then (.ok (issue 15 "Task"), links)
      else (.error (GoError.leaf "GraphQL: Could not resolve to an Issue"), links),
    CreateIssue := fun owner repo title _ labels links =>
      if owner = "octo" ∧ repo = "app" then
        (.ok { ID := "I_20", Number := 20, Title := title, State := "OPEN",
               URL := "https://github.com/octo/app/issues/20",
               Repository := { Owner := owner, Name := repo },
               Labels := labels.map (fun n => { Name := n }),
               Assignees := [], Milestone := none }, links)
      else (.error (GoError.leaf "GraphQL: Could not resolve to a Repository"), links),
    AddSubIssue := fun parentID childID links =>
      if links.any (fun l => l.2 = childID) then
        (some (GoError.leaf "GraphQL: Sub issue may only have one parent"), links)
      else (none, links ++ [(parentID, childID)]),
    RemoveSubIssue := fun parentID childID links =>
      if links.any (fun l => l = (parentID, childID)) then
        (none, links.filter (fun l => l ≠ (parentID, childID)))
      else (some (GoError.leaf "GraphQL: The issue is not a sub-issue of the parent"), links),
    GetSubIssues := fun _ _ _ links => (.ok [], links) }

/-- Options of `sub create --parent 10 --title Task` with the given flags. -/
def createOpts (repo : String) (inheritLabels inheritAssign inheritMilestone : Bool) :
    subCreateOptions :=
  { parent := "10", title := "Task", body := "", repo := repo,
    inheritLabels := inheritLabels, inheritAssign := inheritAssign,
    inheritMilestone := inheritMilestone }

/-- ASCII case-insensitive equality; Go `strings.EqualFold` agrees with it on
    ASCII text. -/
def asciiEqualFold (s t : String) : Bool :=
  decide (asciiToLower s = asciiToLower t)

/-- A project item of issue 10 whose fields hold two spellings of "Status". -/
def item : ProjectItem :=
  { ID := "PVTI_1", Issue := some (issue 10 "Epic"),
    FieldValues := [{ Field := "Status", Value := "Backlog" },
                    { Field := "status", Value := "Done" },
                    { Field := "Status", Value := "In Progress" }] }

/-- A project item of issue 15 with one status and one priority. -/
def tracked : ProjectItem :=
  { ID := "PVTI_2", Issue := some (issue 15 "Task"),
    FieldValues := [{ Field := "Status", Value := "In Progress" },
                    { Field := "Priority", Value := "P1" }] }

/-- Local collaborators of `list` for project 1 of "octo"; the status alias
    "in_progress" stands for "In Progress". -/
def listEnv : ListLocal :=
  { Getwd := .ok "/work",
    LoadFromDirectory := fun _ =>
      .ok { Project := { Owner := "octo", Number := 1 }, Repositories := ["octo/app"] },
    Validate := fun _ => none,
    ResolveFieldValue := fun _ field value =>
      if field = "status" ∧ value = "in_progress" then "In Progress" else value }

/-- A remote holding project 1 of "octo" with the items `item` and `tracked`. -/
def listClient : ListClient Unit :=
  { GetProject := fun owner number _ =>
      if owner = "octo" ∧ number = 1 then
        (.ok { ID := "PVT_1", Number := 1, Title := "Board", URL := "", Closed := false,
               Owner := { Type_ := "User", Login := "octo" } }, ())
      else (.error (GoError.leaf "GraphQL: Could not resolve to a ProjectV2"), ()),
    GetProjectItems := fun _ _ _ => (.ok [item, tracked], ()) }

/-- A project item of "octo/app" holding issue `number`. -/
def projectItem (number : Int) : ProjectItem :=
  { ID := "PVTI_" ++ toString number, Issue := some (issue number "Task"), FieldValues := [] }

/-- A draft item, without an issue. -/
def draftItem : ProjectItem :=
  { ID := "PVTI_draft", Issue := none, FieldValues := [] }

/-- A remote that answers the successive queries from a script, whatever their
    arguments: project lookups and listings fail, and each `GetProjectItems`
    query takes the next scripted answer. -/
def scripted : GraphQL (List (Except GoError (Page ProjectItem))) :=
  { GetUserProject := fun _ _ script => (.error (GoError.leaf "user not found"), script),
    GetOrgProject := fun _ _ script => (.error (GoError.leaf "org not found"), script),
    ListUserProjects := fun _ script => (.ok [], script),
    ListOrgProjects := fun _ script =>
      (.ok [{ ID := "P_1", Number := 1, Title := "Open Project", URL := "", Closed := false },
            { ID := "P_2", Number := 2, Title := "Closed Project", URL := "", Closed := true }],
        script),
    GetProjectItems := fun _ _ script =>
      match script with
      | [] => (.error (GoError.leaf "unexpected query"), [])
      | answer :: rest => (answer, rest) }

/-- The first scripted page: two issues and a draft, more pages to come. -/
def page1 : Page ProjectItem :=
  { Nodes := [projectItem 1, draftItem, projectItem 2], HasNextPage := true,
    EndCursor := "cursor-page-1" }

/-- The second scripted page: one issue, no more pages. -/
def page2 : Page ProjectItem :=
  { Nodes := [projectItem 3], HasNextPage := false, EndCursor := "" }

/-- The issue the demo remote creates for `createOpts` with inherited labels. -/
def created : Issue :=
  { ID := "I_20", Number := 20, Title := "Task", State := "OPEN",
    URL := "https://github.com/octo/app/issues/20",
    Repository := { Owner := "octo", Name := "app" },
    Labels := [{ Name := "bug" }, { Name := "pm-tracked" }],
    Assignees := [], Milestone := none }

end demo

/-! ## Theorems: WrapError -/

namespace api

/-- C9: for every non-nil error for which `IsRateLimited` holds, `WrapError`
    returns an `*APIError` carrying the given operation and resource and whose
    `Err` is the sentinel `ErrRateLimited`. -/
theorem WrapError_rate_limited (operation resource : String) (err : error)
    (hnil : err ≠ none) (h : IsRateLimited err = true) :
    WrapError operation resource err
      = some (GoError.apiError operation resource ErrRateLimited) := by
  cases err with
  | none => exact absurd rfl hnil
  | some e => simp [WrapError, h]

theorem WrapError_rate_limited_witness :
    (some (GoError.leaf "rate limit exceeded") : error) ≠ none ∧
    IsRateLimited (some (GoError.leaf "rate limit exceeded")) = true ∧
    WrapError "get" "project" (some (GoError.leaf "rate limit exceeded"))
      = some (GoError.apiError "get" "project" ErrRateLimited) :=
  ⟨by decide, by decide,
    WrapError_rate_limited "get" "project" (some (GoError.leaf "rate limit exceeded"))
      (by decide) (by decide)⟩

/-- C10, as stated, fails: an error that is both not-found and rate-limited is
    wrapped around `ErrRateLimited`, and `errors.Is(ErrRateLimited, ErrNotFound)`
    is false. -/
theorem WrapError_not_found_counterexample :
    ¬ (∀ (operation resource : String) (err : error), IsNotFound err = true →
        ∃ inner, WrapError operation resource err
            = some (GoError.apiError operation resource inner) ∧
          errors.Is (some inner) (some ErrNotFound) = true) := by
  intro h
  obtain ⟨inner, hw, his⟩ :=
    h "get" "user" (some (GoError.leaf "Could not resolve to a User: API rate limit exceeded"))
      (by decide)
  have hinner : inner = ErrRateLimited := by
    have hw2 : WrapError "get" "user"
        (some (GoError.leaf "Could not resolve to a User: API rate limit exceeded"))
        = some (GoError.apiError "get" "user" ErrRateLimited) := by decide
    rw [hw2] at hw
    injection hw with hw
    injection hw with _ _ hw
    exact hw.symm
  subst hinner
  revert his
  decide

/-- C10 (amended): for every error for which `IsNotFound` holds and
    `IsRateLimited` does not, and every operation and resource, `WrapError`
    returns an `*APIError` with the given operation and resource whose `Err`
    satisfies `errors.Is(Err, ErrNotFound)`; that `Err` is `ErrNotFound`. -/
theorem WrapError_not_found (operation resource : String) (err : error)
    (h : IsNotFound err = true) (hrl : IsRateLimited err = false) :
    ∃ inner, WrapError operation resource err
        = some (GoError.apiError operation resource inner) ∧
      errors.Is (some inner) (some ErrNotFound) = true ∧ inner = ErrNotFound := by
  cases err with
  | none => simp [IsNotFound, errors.Is] at h
  | some e => exact ⟨ErrNotFound, by simp [WrapError, h, hrl], by decide, rfl⟩

theorem WrapError_not_found_witness :
    IsNotFound (some (GoError.leaf "Could not resolve to a User")) = true ∧
    IsRateLimited (some (GoError.leaf "Could not resolve to a User")) = false ∧
    ∃ inner, WrapError "get" "user" (some (GoError.leaf "Could not resolve to a User"))
        = some (GoError.apiError "get" "user" inner) ∧
      errors.Is (some inner) (some ErrNotFound) = true ∧ inner = ErrNotFound :=
  ⟨by decide, by decide,
    WrapError_not_found "get" "user" (some (GoError.leaf "Could not resolve to a User"))
      (by decide) (by decide)⟩

end api

/-! ## Theorems: sub add, sub remove -/

namespace cmd

open api

/-- The generic message of `runSubAdd` is never the already-linked message. -/
theorem generic_add_message_ne (e : GoError) (n : Int) :
    (fmt.Errorf_w "failed to add sub-issue link: " e).Error ≠ (alreadyLinkedError n).Error := by
  intro h
  have h2 := congrArg (fun t : String => t.data.head?) h
  simp [fmt.Errorf_w, alreadyLinkedError, fmt.Errorf, GoError.Error, String.data_append] at h2

/-- C1: when `AddSubIssue` returns the error `e`, `runSubAdd` fails with the
    already-linked error "issue #<child> is already a sub-issue (issues can only
    have one parent)" if the lower-cased message of `e` contains "duplicate" or
    "only have one parent", and otherwise with "failed to add sub-issue link: <e>",
    which is never the already-linked error. -/
theorem runSubAdd_link_error {σ : Type} (ToLower : String → String) (env : Local)
    (client : Client σ) (arg0 arg1 : String) (s s1 s2 s3 : σ) (parent child : IssueRef)
    (parentIssue childIssue : Issue) (e : GoError)
    (hres : resolveParentChild env arg0 arg1 = .ok (parent, child))
    (hp : client.GetIssue parent.owner parent.repo parent.number s = (.ok parentIssue, s1))
    (hc : client.GetIssue child.owner child.repo child.number s1 = (.ok childIssue, s2))
    (hadd : client.AddSubIssue parentIssue.ID childIssue.ID s2 = (some e, s3)) :
    ((strings.Contains (ToLower e.Error) "duplicate" = true ∨
        strings.Contains (ToLower e.Error) "only have one parent" = true) →
      (runSubAdd ToLower env client arg0 arg1 s).err = some (alreadyLinkedError child.number) ∧
      (alreadyLinkedError child.number).Error =
        "issue #" ++ toString child.number ++
          " is already a sub-issue (issues can only have one parent)") ∧
    (¬ (strings.Contains (ToLower e.Error) "duplicate" = true ∨
        strings.Contains (ToLower e.Error) "only have one parent" = true) →
      (runSubAdd ToLower env client arg0 arg1 s).err
        = some (fmt.Errorf_w "failed to add sub-issue link: " e) ∧
      (fmt.Errorf_w "failed to add sub-issue link: " e).Error
        = "failed to add sub-issue link: " ++ e.Error ∧
      ∀ n : Int, (runSubAdd ToLower env client arg0 arg1 s).err ≠ some (alreadyLinkedError n) ∧
        (fmt.Errorf_w "failed to add sub-issue link: " e).Error ≠ (alreadyLinkedError n).Error) := by
  constructor
  · intro hl
    refine ⟨?_, rfl⟩
    have hl2 : (strings.Contains (ToLower e.Error) "duplicate" ||
        strings.Contains (ToLower e.Error) "only have one parent") = true := by
      simpa using hl
    simp [runSubAdd, hres, subAddRemote, hp, hc, hadd, hl2]
  · intro hl
    have hl2 : (strings.Contains (ToLower e.Error) "duplicate" ||
        strings.Contains (ToLower e.Error) "only have one parent") = false := by
      simpa using hl
    have herr : (runSubAdd ToLower env client arg0 arg1 s).err
        = some (fmt.Errorf_w "failed to add sub-issue link: " e) := by
      simp [runSubAdd, hres, subAddRemote, hp, hc, hadd, hl2]
    refine ⟨herr, rfl, fun n => ⟨?_, generic_add_message_ne e n⟩⟩
    rw [herr]
    intro h
    injection h with h
    exact generic_add_message_ne e n (congrArg GoError.Error h)

theorem runSubAdd_link_error_witness :
    (runSubAdd demo.asciiToLower demo.env demo.client "10" "15" [("I_10", "I_15")]).err
      = some (alreadyLinkedError 15) :=
  ((runSubAdd_link_error demo.asciiToLower demo.env demo.client "10" "15"
      [("I_10", "I_15")] [("I_10", "I_15")] [("I_10", "I_15")] [("I_10", "I_15")]
      ⟨"octo", "app", 10⟩ ⟨"octo", "app", 15⟩ (demo.issue 10 "Epic") (demo.issue 15 "Task")
      (GoError.leaf "GraphQL: Sub issue may only have one parent")
      (by rfl) (by rfl) (by rfl) (by rfl)).1 (Or.inr (by decide))).1

/-- C2: when `RemoveSubIssue` returns the error `e`, `runSubRemove` fails with
    "issue #<child> is not a sub-issue of #<parent>" if the lower-cased message
    of `e` contains "not a sub-issue" or "not found", and otherwise with
    "failed to remove sub-issue link: <e>". -/
theorem runSubRemove_unlink_error {σ : Type} (ToLower : String → String) (env : Local)
    (client : Client σ) (arg0 arg1 : String) (s s1 s2 s3 : σ) (parent child : IssueRef)
    (parentIssue childIssue : Issue) (e : GoError)
    (hres : resolveParentChild env arg0 arg1 = .ok (parent, child))
    (hp : client.GetIssue parent.owner parent.repo parent.number s = (.ok parentIssue, s1))
    (hc : client.GetIssue child.owner child.repo child.number s1 = (.ok childIssue, s2))
    (hrm : client.RemoveSubIssue parentIssue.ID childIssue.ID s2 = (some e, s3)) :
    ((strings.Contains (ToLower e.Error) "not a sub-issue" = true ∨
        strings.Contains (ToLower e.Error) "not found" = true) →
      (runSubRemove ToLower env client arg0 arg1 s).err
        = some (notLinkedError child.number parent.number) ∧
      (notLinkedError child.number parent.number).Error =
        "issue #" ++ toString child.number ++ " is not a sub-issue of #" ++
          toString parent.number) ∧
    (¬ (strings.Contains (ToLower e.Error) "not a sub-issue" = true ∨
        strings.Contains (ToLower e.Error) "not found" = true) →
      (runSubRemove ToLower env client arg0 arg1 s).err
        = some (fmt.Errorf_w "failed to remove sub-issue link: " e) ∧
      (fmt.Errorf_w "failed to remove sub-issue link: " e).Error
        = "failed to remove sub-issue link: " ++ e.Error) := by
  constructor
  · intro hl
    refine ⟨?_, rfl⟩
    have hl2 : (strings.Contains (ToLower e.Error) "not a sub-issue" ||
        strings.Contains (ToLower e.Error) "not found") = true := by
      simpa using hl
    simp [runSubRemove, hres, subRemoveRemote, hp, hc, hrm, hl2]
  · intro hl
    have hl2 : (strings.Contains (ToLower e.Error) "not a sub-issue" ||
        strings.Contains (ToLower e.Error) "not found") = false := by
      simpa using hl
    refine ⟨?_, rfl⟩
    simp [runSubRemove, hres, subRemoveRemote, hp, hc, hrm, hl2]

theorem runSubRemove_unlink_error_witness :
    (runSubRemove demo.asciiToLower demo.env demo.client "10" "15" []).err
      = some (notLinkedError 15 10) :=
  ((runSubRemove_unlink_error demo.asciiToLower demo.env demo.client "10" "15" [] [] [] []
      ⟨"octo", "app", 10⟩ ⟨"octo", "app", 15⟩ (demo.issue 10 "Epic") (demo.issue 15 "Task")
      (GoError.leaf "GraphQL: The issue is not a sub-issue of the parent")
      (by rfl) (by rfl) (by rfl) (by rfl)).1 (Or.inl (by decide))).1

/-- C7: in `runSubAdd`, a failed parent lookup returns an error beginning
    "failed to get parent issue #<parent>" after that single remote call; a failed
    child lookup (parent resolved) returns an error beginning
    "failed to get child issue #<child>" after the two lookups; and an
    `AddSubIssue` call occurs only when both lookups succeeded. -/
theorem runSubAdd_lookups_first {σ : Type} (ToLower : String → String) (env : Local)
    (client : Client σ) (arg0 arg1 : String) (s : σ) (parent child : IssueRef)
    (hres : resolveParentChild env arg0 arg1 = .ok (parent, child)) :
    (∀ (e : GoError) (s1 : σ),
      client.GetIssue parent.owner parent.repo parent.number s = (.error e, s1) →
      (∃ err rest, (runSubAdd ToLower env client arg0 arg1 s).err = some err ∧
        err.Error = "failed to get parent issue #" ++ toString parent.number ++ rest ∧
        err.Unwrap = some e) ∧
      (runSubAdd ToLower env client arg0 arg1 s).calls
        = [Call.GetIssue parent.owner parent.repo parent.number]) ∧
    (∀ (parentIssue : Issue) (s1 : σ) (e : GoError) (s2 : σ),
      client.GetIssue parent.owner parent.repo parent.number s = (.ok parentIssue, s1) →
      client.GetIssue child.owner child.repo child.number s1 = (.error e, s2) →
      (∃ err rest, (runSubAdd ToLower env client arg0 arg1 s).err = some err ∧
        err.Error = "failed to get child issue #" ++ toString child.number ++ rest ∧
        err.Unwrap = some e) ∧
      (runSubAdd ToLower env client arg0 arg1 s).calls
        = [Call.GetIssue parent.owner parent.repo parent.number,
           Call.GetIssue child.owner child.repo child.number]) ∧
    (∀ c ∈ (runSubAdd ToLower env client arg0 arg1 s).calls, c.isAddSubIssue = true →
      ∃ (parentIssue : Issue) (s1 : σ) (childIssue : Issue) (s2 : σ),
        client.GetIssue parent.owner parent.repo parent.number s = (.ok parentIssue, s1) ∧
        client.GetIssue child.owner child.repo child.number s1 = (.ok childIssue, s2) ∧
        c = Call.AddSubIssue parentIssue.ID childIssue.ID) := by
  refine ⟨?_, ?_, ?_⟩
  · intro e s1 hp
    refine ⟨⟨fmt.Errorf_w ("failed to get parent issue #" ++ toString parent.number ++ ": ") e,
      ": " ++ e.Error, ?_, ?_, rfl⟩, ?_⟩
    · simp only [runSubAdd, hres, subAddRemote, hp]
    · simp [fmt.Errorf_w, GoError.Error, String.append_assoc]
    · simp only [runSubAdd, hres, subAddRemote, hp]
  · intro parentIssue s1 e s2 hp hc
    refine ⟨⟨fmt.Errorf_w ("failed to get child issue #" ++ toString child.number ++ ": ") e,
      ": " ++ e.Error, ?_, ?_, rfl⟩, ?_⟩
    · simp only [runSubAdd, hres, subAddRemote, hp, hc]
    · simp [fmt.Errorf_w, GoError.Error, String.append_assoc]
    · simp only [runSubAdd, hres, subAddRemote, hp, hc]
  · intro c hmem hadd
    simp only [runSubAdd, hres, subAddRemote] at hmem
    rcases hp : client.GetIssue parent.owner parent.repo parent.number s with ⟨rp, s1⟩
    rw [hp] at hmem
    cases rp with
    | error e =>
      simp only [List.mem_singleton] at hmem
      subst hmem
      simp [Call.isAddSubIssue] at hadd
    | ok parentIssue =>
      simp only at hmem
      rcases hc : client.GetIssue child.owner child.repo child.number s1 with ⟨rc, s2⟩
      rw [hc] at hmem
      cases rc with
      | error e =>
        simp only [List.mem_cons, List.mem_singleton, List.not_mem_nil, or_false] at hmem
        rcases hmem with h | h <;> subst h <;> simp [Call.isAddSubIssue] at hadd
      | ok childIssue =>
        refine ⟨parentIssue, s1, childIssue, s2, rfl, hc, ?_⟩
        simp only at hmem
        rcases ha : client.AddSubIssue parentIssue.ID childIssue.ID s2 with ⟨ra, s3⟩
        rw [ha] at hmem
        cases ra with
        | none =>
          simp only [List.mem_cons, List.mem_singleton, List.not_mem_nil, or_false] at hmem
          rcases hmem with h | h | h
          · subst h; simp [Call.isAddSubIssue] at hadd
          · subst h; simp [Call.isAddSubIssue] at hadd
          · exact h
        | some e =>
          simp only at hmem
          split at hmem <;>
          · simp only [List.mem_cons, List.mem_singleton, List.not_mem_nil, or_false] at hmem
            rcases hmem with h | h | h
            · subst h; simp [Call.isAddSubIssue] at hadd
            · subst h; simp [Call.isAddSubIssue] at hadd
            · exact h

theorem runSubAdd_lookups_first_witness :
    (runSubAdd demo.asciiToLower demo.env demo.client "999999" "15" []).calls
      = [Call.GetIssue "octo" "app" 999999] :=
  ((runSubAdd_lookups_first demo.asciiToLower demo.env demo.client "999999" "15" []
      ⟨"octo", "app", 999999⟩ ⟨"octo", "app", 15⟩ (by rfl)).1
    (GoError.leaf "GraphQL: Could not resolve to an Issue") [] (by rfl)).2

end cmd

/-! ## Theorems: sub create -/

namespace strings

theorem splitChars_ne_nil (sep : Char) (cs cur : List Char) : splitChars sep cs cur ≠ [] := by
  induction cs generalizing cur with
  | nil => simp [splitChars]
  | cons c cs ih =>
    unfold splitChars
    split
    · simp
    · exact ih _

theorem splitChars_singleton (sep : Char) (cs cur b : List Char)
    (h : splitChars sep cs cur = [b]) : b = cur.reverse ++ cs := by
  induction cs generalizing cur with
  | nil => simpa [splitChars] using h.symm
  | cons c cs ih =>
    unfold splitChars at h
    split at h
    · simp only [List.cons.injEq] at h
      exact absurd h.2 (splitChars_ne_nil sep cs [])
    · simpa using ih _ h

theorem splitChars_pair (sep : Char) (cs cur a b : List Char)
    (h : splitChars sep cs cur = [a, b]) : cur.reverse ++ cs = a ++ sep :: b := by
  induction cs generalizing cur with
  | nil => simp [splitChars] at h
  | cons c cs ih =>
    unfold splitChars at h
    split at h
    · rename_i hc
      simp only [List.cons.injEq] at h
      have hb := splitChars_singleton sep cs [] b h.2
      simp only [List.reverse_nil, List.nil_append] at hb
      rw [← h.1, hb, hc]
    · simpa using ih _ h

/-- A string that splits on "/" into exactly two parts is the two parts with
    one "/" between them. -/
theorem Split_pair (s o r : String) (h : Split s '/' = [o, r]) : s = o ++ "/" ++ r := by
  unfold Split at h
  match hsp : splitChars '/' s.data [] with
  | [] => simp [hsp] at h
  | [_] => simp [hsp] at h
  | _ :: _ :: _ :: _ => simp [hsp] at h
  | [a, b] =>
    rw [hsp] at h
    simp only [List.map_cons, List.map_nil, List.cons.injEq, and_true] at h
    have hd := splitChars_pair '/' s.data [] a b hsp
    simp only [List.reverse_nil, List.nil_append] at hd
    apply String.ext
    rw [hd, ← h.1, ← h.2]
    simp [String.data_append]

end strings

namespace cmd

open api

theorem foldl_append_map {α β : Type} (f : α → β) (l : List α) (init : List β) :
    l.foldl (fun acc x => acc ++ [f x]) init = init ++ l.map f := by
  induction l generalizing init with
  | nil => simp
  | cons x xs ih => simp [ih]

/-- The labels list is the parent label names, in order, exactly when the target
    is not cross-repo and `inheritLabels` is set. -/
theorem buildLabels_eq (isCrossRepo inheritLabels : Bool) (parentIssue : Issue) :
    buildLabels isCrossRepo inheritLabels parentIssue =
      if isCrossRepo = false ∧ inheritLabels = true then
        parentIssue.Labels.map (fun l => l.Name)
      else [] := by
  unfold buildLabels
  rw [foldl_append_map]
  cases isCrossRepo <;> cases inheritLabels <;> simp

/-- The target of `sub create` without `--repo` is the parent repository. -/
theorem targetRepository_default (parent : IssueRef) :
    targetRepository "" parent = .ok ⟨parent.owner, parent.repo, false⟩ := by
  simp [targetRepository]

/-- The target of `sub create` with a well-formed `--repo`. -/
theorem targetRepository_flag (repoFlag : String) (parent : IssueRef) (target : Target)
    (hne : repoFlag ≠ "") (h : targetRepository repoFlag parent = .ok target) :
    strings.Split repoFlag '/' = [target.targetOwner, target.targetRepo] ∧
    target.isCrossRepo
      = decide (target.targetOwner ≠ parent.owner ∨ target.targetRepo ≠ parent.repo) := by
  unfold targetRepository at h
  rw [if_pos hne] at h
  split at h
  · rename_i o r hsp
    injection h with h
    subst h
    exact ⟨hsp, rfl⟩
  · cases h

theorem targetRepository_cross (repoFlag : String) (parent : IssueRef) (target : Target)
    (h : targetRepository repoFlag parent = .ok target) :
    target.isCrossRepo = true ↔
      repoFlag ≠ "" ∧
        (target.targetOwner ≠ parent.owner ∨ target.targetRepo ≠ parent.repo) := by
  by_cases hne : repoFlag = ""
  · subst hne
    rw [targetRepository_default] at h
    injection h with h
    subst h
    simp
  · have h2 := (targetRepository_flag repoFlag parent target hne h).2
    rw [h2]
    simp [hne]

theorem targetRepository_same (repoFlag : String) (parent : IssueRef) (target : Target)
    (h : targetRepository repoFlag parent = .ok target) :
    target.isCrossRepo = false ↔
      (target.targetOwner = parent.owner ∧ target.targetRepo = parent.repo) := by
  by_cases hne : repoFlag = ""
  · subst hne
    rw [targetRepository_default] at h
    injection h with h
    subst h
    simp
  · have h2 := (targetRepository_flag repoFlag parent target hne h).2
    rw [h2]
    simp

/-- Once the parent is resolved, `sub create` makes exactly one `CreateIssue`
    call, in the target repository, with the built labels. -/
theorem subCreateRemote_createCalls {σ : Type} (client : Client σ) (opts : subCreateOptions)
    (parent : IssueRef) (target : Target) (s s1 : σ) (parentIssue : Issue)
    (hp : client.GetIssue parent.owner parent.repo parent.number s = (.ok parentIssue, s1)) :
    (subCreateRemote client opts parent target s).calls.filter Call.isCreateIssue =
      [Call.CreateIssue target.targetOwner target.targetRepo opts.title opts.body
        (buildLabels target.isCrossRepo opts.inheritLabels parentIssue)] := by
  simp only [subCreateRemote, hp]
  rcases hcr : client.CreateIssue target.targetOwner target.targetRepo opts.title opts.body
    (buildLabels target.isCrossRepo opts.inheritLabels parentIssue) s1 with ⟨rc, s2⟩
  cases rc with
  | error e => simp [List.filter, Call.isCreateIssue]
  | ok newIssue =>
    simp only
    rcases ha : client.AddSubIssue parentIssue.ID newIssue.ID s2 with ⟨ra, s3⟩
    cases ra with
    | none => simp [List.filter, Call.isCreateIssue]
    | some e => simp [List.filter, Call.isCreateIssue]

/-- C3: once the parent is resolved, the label list passed to `CreateIssue` is
    the parent's label names in the parent's order when the target repository
    equals the parent's repository and `inheritLabels` is set, and empty in
    every other case. -/
theorem runSubCreate_labels {σ : Type} (env : Local) (client : Client σ)
    (opts : subCreateOptions) (s s1 : σ) (parent : IssueRef) (target : Target)
    (parentIssue : Issue)
    (hres : resolveParent env opts.parent = .ok parent)
    (htgt : targetRepository opts.repo parent = .ok target)
    (hp : client.GetIssue parent.owner parent.repo parent.number s = (.ok parentIssue, s1)) :
    (opts.repo = "" → target.targetOwner = parent.owner ∧ target.targetRepo = parent.repo) ∧
    (runSubCreate env client opts s).calls.filter Call.isCreateIssue =
      [Call.CreateIssue target.targetOwner target.targetRepo opts.title opts.body
        (if (target.targetOwner = parent.owner ∧ target.targetRepo = parent.repo) ∧
            opts.inheritLabels = true then
          parentIssue.Labels.map (fun l => l.Name)
        else [])] := by
  constructor
  · intro hrepo
    rw [hrepo, targetRepository_default] at htgt
    injection htgt with htgt
    subst htgt
    exact ⟨rfl, rfl⟩
  · simp only [runSubCreate, hres, htgt]
    rw [subCreateRemote_createCalls client opts parent target s s1 parentIssue hp,
      buildLabels_eq]
    by_cases hx : target.isCrossRepo = false
    · have hsame := (targetRepository_same opts.repo parent target htgt).1 hx
      simp [hx, hsame]
    · have hsame : ¬ (target.targetOwner = parent.owner ∧ target.targetRepo = parent.repo) :=
        fun h => hx ((targetRepository_same opts.repo parent target htgt).2 h)
      simp [hx, hsame]

theorem runSubCreate_labels_witness :
    (runSubCreate demo.env demo.client (demo.createOpts "" true false true) []).calls.filter
        Call.isCreateIssue
      = [Call.CreateIssue "octo" "app" "Task" "" ["bug", "pm-tracked"]] :=
  (runSubCreate_labels demo.env demo.client (demo.createOpts "" true false true) [] []
    ⟨"octo", "app", 10⟩ ⟨"octo", "app", false⟩ (demo.issue 10 "Epic")
    (by rfl) (by rfl) (by rfl)).2

/-- The run of `sub create` does not depend on `inheritAssign` and
    `inheritMilestone`. -/
theorem runSubCreate_ignores_assign_milestone {σ : Type} (env : Local) (client : Client σ)
    (opts : subCreateOptions) (a m : Bool) (s : σ) :
    runSubCreate env client
        { parent := opts.parent, title := opts.title, body := opts.body, repo := opts.repo,
          inheritLabels := opts.inheritLabels, inheritAssign := a, inheritMilestone := m } s
      = runSubCreate env client opts s := by
  rfl

/-- C4 at a concrete parent with a milestone and an assignee, created in the
    parent's repository with all three inherit flags set: the only creation
    request carries owner, repository, title, body and the labels, and the run
    is the same as with `inheritAssign` and `inheritMilestone` unset. -/
theorem runSubCreate_milestone_assignees_not_copied :
    (demo.issue 10 "Epic").Milestone = some { Title := "v1.0" } ∧
    (demo.issue 10 "Epic").Assignees = [{ Login := "alice" }] ∧
    (runSubCreate demo.env demo.client (demo.createOpts "" true true true) []).calls
      = [Call.GetIssue "octo" "app" 10,
         Call.CreateIssue "octo" "app" "Task" "" ["bug", "pm-tracked"],
         Call.AddSubIssue "I_10" "I_20"] ∧
    (runSubCreate demo.env demo.client (demo.createOpts "" true true true) []).calls
      = (runSubCreate demo.env demo.client (demo.createOpts "" true false false) []).calls ∧
    (runSubCreate demo.env demo.client (demo.createOpts "" true true true) []).err = none := by
  refine ⟨rfl, rfl, ?_, ?_, ?_⟩ <;> rfl

/-- C5: when `CreateIssue` succeeds and the following `AddSubIssue` fails,
    `runSubCreate` returns nil, prints the created issue's number, title and URL
    (and a warning on stderr), and the failed link is its last remote call. -/
theorem runSubCreate_partial_success {σ : Type} (env : Local) (client : Client σ)
    (opts : subCreateOptions) (s s1 s2 s3 : σ) (parent : IssueRef) (target : Target)
    (parentIssue newIssue : Issue) (e : GoError)
    (hres : resolveParent env opts.parent = .ok parent)
    (htgt : targetRepository opts.repo parent = .ok target)
    (hp : client.GetIssue parent.owner parent.repo parent.number s = (.ok parentIssue, s1))
    (hcr : client.CreateIssue target.targetOwner target.targetRepo opts.title opts.body
      (buildLabels target.isCrossRepo opts.inheritLabels parentIssue) s1 = (.ok newIssue, s2))
    (hadd : client.AddSubIssue parentIssue.ID newIssue.ID s2 = (some e, s3)) :
    (runSubCreate env client opts s).err = none ∧
    (runSubCreate env client opts s).stdout =
      ["Created issue #" ++ toString newIssue.Number ++ ": " ++ newIssue.Title ++ "\n",
       newIssue.URL ++ "\n"] ∧
    (runSubCreate env client opts s).stderr =
      ["Warning: Issue created but failed to link as sub-issue: " ++ e.Error ++ "\n"] ∧
    (runSubCreate env client opts s).calls =
      [Call.GetIssue parent.owner parent.repo parent.number,
       Call.CreateIssue target.targetOwner target.targetRepo opts.title opts.body
         (buildLabels target.isCrossRepo opts.inheritLabels parentIssue),
       Call.AddSubIssue parentIssue.ID newIssue.ID] ∧
    (runSubCreate env client opts s).state = s3 := by
  simp only [runSubCreate, hres, htgt, subCreateRemote, hp, hcr, hadd, and_self]

theorem runSubCreate_partial_success_witness :
    (runSubCreate demo.env demo.client (demo.createOpts "" true false true)
        [("I_99", "I_20")]).err = none :=
  (runSubCreate_partial_success demo.env demo.client (demo.createOpts "" true false true)
    [("I_99", "I_20")] [("I_99", "I_20")] [("I_99", "I_20")] [("I_99", "I_20")]
    ⟨"octo", "app", 10⟩ ⟨"octo", "app", false⟩ (demo.issue 10 "Epic") demo.created
    (GoError.leaf "GraphQL: Sub issue may only have one parent")
    (by rfl) (by rfl) (by rfl) (by rfl) (by rfl)).1

/-- C6: `CreateIssue` is invoked in the parent's own owner/repo when `--repo` is
    empty and in the owner/repo given by `--repo` otherwise, and `isCrossRepo`
    is true exactly when `--repo` is given and differs from the parent's owner
    or repository name. -/
theorem runSubCreate_target {σ : Type} (env : Local) (client : Client σ)
    (opts : subCreateOptions) (s s1 : σ) (parent : IssueRef) (target : Target)
    (parentIssue : Issue)
    (hres : resolveParent env opts.parent = .ok parent)
    (htgt : targetRepository opts.repo parent = .ok target)
    (hp : client.GetIssue parent.owner parent.repo parent.number s = (.ok parentIssue, s1)) :
    (∃ labels, (runSubCreate env client opts s).calls.filter Call.isCreateIssue =
      [Call.CreateIssue target.targetOwner target.targetRepo opts.title opts.body labels]) ∧
    (opts.repo = "" → target.targetOwner = parent.owner ∧ target.targetRepo = parent.repo) ∧
    (opts.repo ≠ "" → opts.repo = target.targetOwner ++ "/" ++ target.targetRepo) ∧
    (target.isCrossRepo = true ↔
      opts.repo ≠ "" ∧
        (target.targetOwner ≠ parent.owner ∨ target.targetRepo ≠ parent.repo)) := by
  refine ⟨⟨buildLabels target.isCrossRepo opts.inheritLabels parentIssue, ?_⟩, ?_, ?_,
    targetRepository_cross opts.repo parent target htgt⟩
  · simp only [runSubCreate, hres, htgt]
    exact subCreateRemote_createCalls client opts parent target s s1 parentIssue hp
  · intro hrepo
    rw [hrepo, targetRepository_default] at htgt
    injection htgt with htgt
    subst htgt
    exact ⟨rfl, rfl⟩
  · intro hne
    exact strings.Split_pair _ _ _ (targetRepository_flag opts.repo parent target hne htgt).1

theorem runSubCreate_target_witness :
    ∃ labels, (runSubCreate demo.env demo.client
        (demo.createOpts "octo/lib" true false true) []).calls.filter Call.isCreateIssue =
      [Call.CreateIssue "octo" "lib" "Task" "" labels] :=
  (runSubCreate_target demo.env demo.client (demo.createOpts "octo/lib" true false true) [] []
    ⟨"octo", "app", 10⟩ ⟨"octo", "lib", true⟩ (demo.issue 10 "Epic")
    (by rfl) (by rfl) (by rfl)).1

end cmd

/-! ## Theorems: sub list -/

namespace cmd

open api

/-- One pass of the JSON loop keeps the total and adds one to exactly one of
    the closed and open counts. -/
theorem subListJSONStep_summary (output : SubListJSONOutput) (sub : SubIssue) :
    (subListJSONStep output sub).Summary.Total = output.Summary.Total ∧
    (subListJSONStep output sub).Summary.Closed
      = output.Summary.Closed + (if sub.State = "CLOSED" then 1 else 0) ∧
    (subListJSONStep output sub).Summary.Open
      = output.Summary.Open + (if sub.State = "CLOSED" then 0 else 1) := by
  unfold subListJSONStep
  by_cases h : sub.State = "CLOSED" <;> simp [h]

theorem foldl_subListJSONStep_summary (subs : List SubIssue) (init : SubListJSONOutput) :
    (subs.foldl subListJSONStep init).Summary.Total = init.Summary.Total ∧
    (subs.foldl subListJSONStep init).Summary.Closed
      = init.Summary.Closed + (subs.countP (fun sub => decide (sub.State = "CLOSED")) : Nat) ∧
    (subs.foldl subListJSONStep init).Summary.Open
      = init.Summary.Open + (subs.countP (fun sub => !decide (sub.State = "CLOSED")) : Nat) := by
  induction subs generalizing init with
  | nil => simp
  | cons sub subs ih =>
    obtain ⟨ht, hc, ho⟩ := ih (subListJSONStep init sub)
    obtain ⟨ht1, hc1, ho1⟩ := subListJSONStep_summary init sub
    rw [List.foldl_cons, ht, hc, ho, ht1, hc1, ho1]
    refine ⟨rfl, ?_, ?_⟩
    · by_cases h : sub.State = "CLOSED"
      · simp [List.countP_cons, h]; omega
      · simp [List.countP_cons, h]
    · by_cases h : sub.State = "CLOSED"
      · simp [List.countP_cons, h]
      · simp [List.countP_cons, h]; omega

theorem subListTableStep_snd (hasCrossRepo : Bool) (acc : Int × List String) (sub : SubIssue) :
    ∃ line : String, (subListTableStep hasCrossRepo acc sub).2 = acc.2 ++ [line] :=
  ⟨_, rfl⟩

theorem countP_closed_add_open (subs : List SubIssue) :
    ((subs.countP (fun sub => decide (sub.State = "CLOSED")) : Nat) : Int)
      + ((subs.countP (fun sub => !decide (sub.State = "CLOSED")) : Nat) : Int)
      = (subs.length : Int) := by
  induction subs with
  | nil => simp
  | cons sub subs ih =>
    by_cases h : sub.State = "CLOSED"
    · simp [List.countP_cons, h]; omega
    · simp [List.countP_cons, h]; omega

theorem foldl_subListTableStep (hasCrossRepo : Bool) (subs : List SubIssue)
    (acc : Int × List String) :
    (subs.foldl (subListTableStep hasCrossRepo) acc).1
      = acc.1 + (subs.countP (fun sub => decide (sub.State = "CLOSED")) : Nat) ∧
    ∃ rows : List String, rows.length = subs.length ∧
      (subs.foldl (subListTableStep hasCrossRepo) acc).2 = acc.2 ++ rows := by
  induction subs generalizing acc with
  | nil => exact ⟨by simp, [], rfl, by simp⟩
  | cons sub subs ih =>
    obtain ⟨hc, rows, hlen, hrows⟩ := ih (subListTableStep hasCrossRepo acc sub)
    rw [List.foldl_cons, hc, hrows]
    constructor
    · by_cases h : sub.State = "CLOSED"
      · simp [subListTableStep, List.countP_cons, h]; omega
      · simp [subListTableStep, List.countP_cons, h]
    · obtain ⟨line, hline⟩ := subListTableStep_snd hasCrossRepo acc sub
      rw [hline]
      exact ⟨line :: rows, by simp [hlen], by simp⟩

/-- C8: for every list of sub-issues, `outputSubListJSON` reports total = length
    of the list, closed = number of entries whose `State` is exactly "CLOSED",
    open = total - closed (so open + closed = total); and `outputSubListTable`
    prints, for a non-empty list, one row per entry followed by the line
    "Progress: c/t complete" with that same closed count c and total t (for an
    empty list it prints "No sub-issues found." instead). -/
theorem subList_completion_summary (subIssues : List SubIssue) (parent : Issue) :
    (outputSubListJSON subIssues parent).Summary.Total = (subIssues.length : Int) ∧
    (outputSubListJSON subIssues parent).Summary.Closed
      = ((subIssues.countP (fun sub => decide (sub.State = "CLOSED")) : Nat) : Int) ∧
    (outputSubListJSON subIssues parent).Summary.Open
      = (outputSubListJSON subIssues parent).Summary.Total
        - (outputSubListJSON subIssues parent).Summary.Closed ∧
    (outputSubListJSON subIssues parent).Summary.Open
      + (outputSubListJSON subIssues parent).Summary.Closed
      = (outputSubListJSON subIssues parent).Summary.Total ∧
    ((subIssues = [] ∧
        outputSubListTable subIssues parent =
          ["Sub-issues of #" ++ toString parent.Number ++ ": " ++ parent.Title ++ "\n\n",
           "No sub-issues found.\n"]) ∨
      (subIssues ≠ [] ∧ ∃ rows : List String, rows.length = subIssues.length ∧
        outputSubListTable subIssues parent =
          ["Sub-issues of #" ++ toString parent.Number ++ ": " ++ parent.Title ++ "\n\n"] ++
            rows ++
            ["\nProgress: " ++ toString (outputSubListJSON subIssues parent).Summary.Closed ++
              "/" ++ toString (outputSubListJSON subIssues parent).Summary.Total ++
              " complete\n"])) := by
  obtain ⟨ht, hc, ho⟩ := foldl_subListJSONStep_summary subIssues
    { Parent := { Number := parent.Number, Title := parent.Title },
      SubIssues := [],
      Summary := { Total := (subIssues.length : Int), Open := 0, Closed := 0 } }
  simp only [zero_add] at ht hc ho
  have hsum := countP_closed_add_open subIssues
  have hT : (outputSubListJSON subIssues parent).Summary.Total = (subIssues.length : Int) := ht
  have hC : (outputSubListJSON subIssues parent).Summary.Closed
      = ((subIssues.countP (fun sub => decide (sub.State = "CLOSED")) : Nat) : Int) := hc
  have hO : (outputSubListJSON subIssues parent).Summary.Open
      = ((subIssues.countP (fun sub => !decide (sub.State = "CLOSED")) : Nat) : Int) := ho
  refine ⟨hT, hC, ?_, ?_, ?_⟩
  · rw [hO, hT, hC]; omega
  · rw [hO, hT, hC]; omega
  · by_cases hnil : subIssues = []
    · left
      subst hnil
      exact ⟨rfl, rfl⟩
    · right
      refine ⟨hnil, ?_⟩
      have hlen : ¬ subIssues.length = 0 := by
        simpa [List.length_eq_zero] using hnil
      obtain ⟨hcnt, rows, hrl, hrows⟩ := foldl_subListTableStep
        (subIssues.any (fun sub =>
          decide (sub.Repository.Owner ++ "/" ++ sub.Repository.Name ≠
              parent.Repository.Owner ++ "/" ++ parent.Repository.Name ∧
            sub.Repository.Owner ++ "/" ++ sub.Repository.Name ≠ "/")))
        subIssues (0, [])
      refine ⟨rows, hrl, ?_⟩
      simp only [outputSubListTable, if_neg hlen, progressLine]
      rw [hcnt, hrows, hC, hT]
      simp

end cmd

/-! ## Theorems: error classification -/

namespace api

theorem GoError.Is_self (e : GoError) : e.Is e = true := by
  cases e <;> simp [GoError.Is]

/-- `errors.Is` on non-nil errors holds exactly when the target is on the
    unwrap chain. -/
theorem GoError.Is_iff_mem_chain (e target : GoError) :
    e.Is target = true ↔ target ∈ e.chain := by
  induction e with
  | sentinel s => simp [GoError.Is, GoError.chain, eq_comm]
  | leaf msg => simp [GoError.Is, GoError.chain, eq_comm]
  | wrapped msg inner ih =>
    simp only [GoError.Is, GoError.chain, Bool.or_eq_true, decide_eq_true_eq, List.mem_cons, ih]
    constructor
    · rintro (h | h)
      · exact Or.inl h.symm
      · exact Or.inr h
    · rintro (h | h)
      · exact Or.inl h.symm
      · exact Or.inr h
  | apiError op res err ih =>
    simp only [GoError.Is, GoError.chain, Bool.or_eq_true, decide_eq_true_eq, List.mem_cons, ih]
    constructor
    · rintro (h | h)
      · exact Or.inl h.symm
      · exact Or.inr h
    · rintro (h | h)
      · exact Or.inl h.symm
      · exact Or.inr h
  | apiErrorNil op res => simp [GoError.Is, GoError.chain, eq_comm]

/-- `errors.Is(err, target)` for a non-nil target holds exactly when the target
    is on the unwrap chain of `err`. -/
theorem errorsIs_iff_mem_unwrapChain (err : error) (target : GoError) :
    errors.Is err (some target) = true ↔ target ∈ unwrapChain err := by
  cases err with
  | none => simp [errors.Is, unwrapChain]
  | some e => simpa [errors.Is, unwrapChain] using GoError.Is_iff_mem_chain e target

/-- C11: for every non-nil error that is neither rate-limited nor not-found,
    `WrapError` returns an `*APIError` with the given operation and resource
    whose `Err` is the error itself, so `errors.Is(result, err)` holds. -/
theorem WrapError_fallback (operation resource : String) (err : error)
    (hnil : err ≠ none) (hrl : IsRateLimited err = false) (hnf : IsNotFound err = false) :
    WrapError operation resource err = some (APIError operation resource err) ∧
    (∃ e, err = some e ∧
      WrapError operation resource err = some (GoError.apiError operation resource e)) ∧
    errors.Is (WrapError operation resource err) err = true := by
  cases err with
  | none => exact absurd rfl hnil
  | some e =>
    have hw : WrapError operation resource (some e)
        = some (GoError.apiError operation resource e) := by
      simp [WrapError, hrl, hnf]
    refine ⟨by rw [hw]; rfl, ⟨e, rfl, hw⟩, ?_⟩
    rw [hw]
    simp [errors.Is, GoError.Is, GoError.Is_self]

theorem WrapError_fallback_witness :
    WrapError "get" "project" (some (GoError.leaf "connection reset"))
      = some (GoError.apiError "get" "project" (GoError.leaf "connection reset")) :=
  (WrapError_fallback "get" "project" (some (GoError.leaf "connection reset"))
    (by decide) (by decide) (by decide)).1

/-- C12: `WrapError(operation, resource, err)` is nil if and only if `err` is
    nil, for every operation and resource. -/
theorem WrapError_nil_iff (operation resource : String) (err : error) :
    WrapError operation resource err = none ↔ err = none := by
  cases err with
  | none => simp [WrapError]
  | some e =>
    simp only [WrapError]
    split
    · simp
    · split <;> simp

/-- C13: `IsNotFound(err)` is true exactly when the unwrap chain of `err`
    contains `ErrNotFound`, or `err` is non-nil and its message contains
    "Could not resolve" or "NOT_FOUND"; `IsNotFound(nil)` is false. -/
theorem IsNotFound_iff (err : error) :
    (IsNotFound err = true ↔
      (ErrNotFound ∈ unwrapChain err ∨
        ∃ e, err = some e ∧
          (strings.Contains e.Error "Could not resolve" = true ∨
            strings.Contains e.Error "NOT_FOUND" = true))) ∧
    IsNotFound none = false := by
  refine ⟨?_, by decide⟩
  rw [← errorsIs_iff_mem_unwrapChain]
  cases err with
  | none => simp [IsNotFound, errors.Is]
  | some e =>
    by_cases h : errors.Is (some e) (some ErrNotFound) = true
    · simp [IsNotFound, h]
    · simp [IsNotFound, h]

/-- C14: `IsRateLimited(err)` is true exactly when the unwrap chain of `err`
    contains `ErrRateLimited`, or `err` is non-nil and its message contains
    "rate limit" or "RATE_LIMITED", compared case-sensitively;
    `IsRateLimited(nil)` is false. -/
theorem IsRateLimited_iff (err : error) :
    (IsRateLimited err = true ↔
      (ErrRateLimited ∈ unwrapChain err ∨
        ∃ e, err = some e ∧
          (strings.Contains e.Error "rate limit" = true ∨
            strings.Contains e.Error "RATE_LIMITED" = true))) ∧
    IsRateLimited none = false ∧
    IsRateLimited (some (GoError.leaf "Rate Limit exceeded")) = false := by
  refine ⟨?_, by decide, by decide⟩
  rw [← errorsIs_iff_mem_unwrapChain]
  cases err with
  | none => simp [IsRateLimited, errors.Is]
  | some e =>
    by_cases h : errors.Is (some e) (some ErrRateLimited) = true
    · simp [IsRateLimited, h]
    · simp [IsRateLimited, h]

/-- C15: `IsAuthError(err)` is true exactly when the unwrap chain of `err`
    contains `ErrNotAuthenticated`, or `err` is non-nil and its message contains
    "401", "authentication" or "not authenticated"; `IsAuthError(nil)` is
    false. -/
theorem IsAuthError_iff (err : error) :
    (IsAuthError err = true ↔
      (ErrNotAuthenticated ∈ unwrapChain err ∨
        ∃ e, err = some e ∧
          (strings.Contains e.Error "401" = true ∨
            strings.Contains e.Error "authentication" = true ∨
            strings.Contains e.Error "not authenticated" = true))) ∧
    IsAuthError none = false := by
  refine ⟨?_, by decide⟩
  rw [← errorsIs_iff_mem_unwrapChain]
  cases err with
  | none => simp [IsAuthError, errors.Is]
  | some e =>
    by_cases h : errors.Is (some e) (some ErrNotAuthenticated) = true
    · simp [IsAuthError, h]
    · simp [IsAuthError, h, or_assoc]

/-- C16: for every `APIError` with operation, resource and a (non-nil) inner
    error, `Error()` is exactly Operation + " " + Resource + ": " + Err.Error(),
    e.g. "get project: resource not found".  With a nil `Err` the `%v` verb
    prints "<nil>" in its place. -/
theorem APIError_Error (operation resource : String) (e : GoError) :
    (APIError operation resource (some e)).Error
      = operation ++ " " ++ resource ++ ": " ++ e.Error ∧
    (APIError "get" "project" (some ErrNotFound)).Error = "get project: resource not found" ∧
    (APIError operation resource none).Error = operation ++ " " ++ resource ++ ": " ++ "<nil>" :=
  ⟨rfl, by decide, rfl⟩

/-- C17: for every operation, resource and inner error, `Unwrap()` of the
    `APIError` returns the inner error, so the inner error, and in particular a
    wrapped sentinel, is found by `errors.Is`, and `IsNotFound` holds of an
    `APIError` around `ErrNotFound`. -/
theorem APIError_Unwrap (operation resource : String) (err : error) :
    (APIError operation resource err).Unwrap = err ∧
    (∀ e : GoError, errors.Is (some (APIError operation resource (some e))) (some e) = true) ∧
    errors.Is (some (APIError operation resource (some ErrNotFound))) (some ErrNotFound) = true ∧
    IsNotFound (some (APIError operation resource (some ErrNotFound))) = true := by
  have his : ∀ e : GoError,
      errors.Is (some (APIError operation resource (some e))) (some e) = true := by
    intro e
    simp [errors.Is, APIError, GoError.Is, GoError.Is_self]
  refine ⟨?_, his, his ErrNotFound, ?_⟩
  · cases err <;> rfl
  · simp [IsNotFound, his ErrNotFound]

end api

/-! ## Theorems: list -/

namespace cmd

open api

/-- The inner loop finds a match exactly when some field value matches. -/
theorem fieldValueMatches_eq_any (EqualFold : String → String → Bool)
    (fieldName value : String) (fvs : List FieldValue) :
    fieldValueMatches EqualFold fieldName value fvs
      = fvs.any (fun fv => EqualFold fv.Field fieldName && EqualFold fv.Value value) := by
  induction fvs with
  | nil => rfl
  | cons fv rest ih =>
    simp only [fieldValueMatches, List.any_cons, ih]
    cases (EqualFold fv.Field fieldName && EqualFold fv.Value value) <;> simp

/-- Appending the kept items one by one is filtering. -/
theorem foldl_keep_eq_filter {α : Type} (keep : α → Bool) (l init : List α) :
    l.foldl (fun filtered x => if keep x then filtered ++ [x] else filtered) init
      = init ++ l.filter keep := by
  induction l generalizing init with
  | nil => simp
  | cons x xs ih =>
    rw [List.foldl_cons, ih]
    cases h : keep x <;> simp [List.filter_cons, h]

/-- C18: `filterByFieldValue` returns exactly the items, in their order, that
    have at least one field value whose Field equals the field name and whose
    Value equals the value under `strings.EqualFold`; the result is a sub-list
    of the input, so every item is kept at most once and nothing else appears. -/
theorem filterByFieldValue_spec (EqualFold : String → String → Bool)
    (items : List ProjectItem) (fieldName value : String) :
    filterByFieldValue EqualFold items fieldName value
      = items.filter (fun item =>
          item.FieldValues.any (fun fv =>
            EqualFold fv.Field fieldName && EqualFold fv.Value value)) ∧
    (filterByFieldValue EqualFold items fieldName value).Sublist items ∧
    (∀ item, item ∈ filterByFieldValue EqualFold items fieldName value ↔
      item ∈ items ∧ ∃ fv ∈ item.FieldValues,
        EqualFold fv.Field fieldName = true ∧ EqualFold fv.Value value = true) := by
  have h : filterByFieldValue EqualFold items fieldName value
      = items.filter (fun item =>
          item.FieldValues.any (fun fv =>
            EqualFold fv.Field fieldName && EqualFold fv.Value value)) := by
    unfold filterByFieldValue
    rw [foldl_keep_eq_filter (fun item : ProjectItem =>
      fieldValueMatches EqualFold fieldName value item.FieldValues) items []]
    simp only [List.nil_append]
    congr 1
    funext item
    exact fieldValueMatches_eq_any EqualFold fieldName value item.FieldValues
  refine ⟨h, ?_, ?_⟩
  · rw [h]
    exact List.filter_sublist items
  · intro item
    rw [h]
    simp [List.mem_filter]

/-- The map built from a list of field values sends a name to the value of the
    last entry with exactly that name, or to what the initial map held. -/
theorem foldl_set_lookup (fvs : List FieldValue) (m0 : StringMap) (name : String) :
    (fvs.foldl (fun m fv => StringMap.set m fv.Field fv.Value) m0) name
      = match (fvs.filter (fun fv => decide (fv.Field = name))).getLast? with
        | some fv => some fv.Value
        | none => m0 name := by
  induction fvs using List.reverseRecOn with
  | nil => rfl
  | append_singleton l a ih =>
    rw [List.foldl_append, List.filter_append, List.getLast?_append]
    simp only [List.foldl_cons, List.foldl_nil, StringMap.set]
    by_cases h : a.Field = name
    · simp [List.filter_cons, h]
    · have h2 : ¬ name = a.Field := fun hh => h hh.symm
      simp [List.filter_cons, h, h2, ih]

theorem foldl_outputJSON_items (items : List ProjectItem) (init : JSONOutput) :
    (items.foldl (fun output item =>
      match item.Issue with
      | none => output
      | some issue => { Items := output.Items ++ [jsonItem item issue] }) init).Items
      = init.Items ++ items.filterMap (fun item => item.Issue.map (jsonItem item)) := by
  induction items generalizing init with
  | nil => simp
  | cons item rest ih =>
    rw [List.foldl_cons, ih]
    cases h : item.Issue <;> simp [List.filterMap_cons, h]

/-- C19: `outputJSON` emits one entry per item with a non-nil issue, in order,
    and the fieldValues mapping of such an entry sends each field name to the
    Value of the last entry of `item.FieldValues` with exactly that name (names
    that do not occur are absent); names differing only by letter case are
    separate keys. -/
theorem outputJSON_fieldValues (items : List ProjectItem) :
    (outputJSON items).Items
      = items.filterMap (fun item => item.Issue.map (jsonItem item)) ∧
    (∀ (item : ProjectItem) (issue : Issue) (name : String),
      (jsonItem item issue).FieldValues name
        = ((item.FieldValues.filter (fun fv => decide (fv.Field = name))).getLast?).map
            (fun fv => fv.Value)) ∧
    (∀ (issue : Issue) (a b c : String),
      (jsonItem { ID := "", Issue := some issue,
                  FieldValues := [{ Field := "Status", Value := a },
                                  { Field := "status", Value := b },
                                  { Field := "Status", Value := c }] } issue).FieldValues "Status"
        = some c ∧
      (jsonItem { ID := "", Issue := some issue,
                  FieldValues := [{ Field := "Status", Value := a },
                                  { Field := "status", Value := b },
                                  { Field := "Status", Value := c }] } issue).FieldValues "status"
        = some b) := by
  refine ⟨?_, ?_, ?_⟩
  · unfold outputJSON
    rw [foldl_outputJSON_items]
    simp
  · intro item issue name
    simp only [jsonItem]
    rw [foldl_set_lookup]
    cases (item.FieldValues.filter (fun fv => decide (fv.Field = name))).getLast? <;>
      simp [StringMap.empty]
  · intro issue a b c
    constructor <;> simp [jsonItem, StringMap.set, StringMap.empty]

end cmd

/-! ## Theorems: sub create, validation of --repo -/

namespace cmd

open api

/-- A non-empty `--repo` that does not split into two parts is rejected. -/
theorem targetRepository_invalid (repoFlag : String) (parent : IssueRef)
    (hne : repoFlag ≠ "") (hlen : (strings.Split repoFlag '/').length ≠ 2) :
    targetRepository repoFlag parent
      = .error (fmt.Errorf ("invalid repository format: " ++ repoFlag ++
          " (expected owner/repo)")) := by
  unfold targetRepository
  rw [if_pos hne]
  split
  · rename_i o r hsp
    rw [hsp] at hlen
    exact absurd rfl hlen
  · rfl

/-- C20: in `runSubCreate`, a non-empty `--repo` that does not split on "/"
    into exactly two parts makes the command return before any remote call or
    output; once the configuration and the parent reference are resolved, the
    returned error is "invalid repository format: <value> (expected owner/repo)". -/
theorem runSubCreate_invalid_repo {σ : Type} (env : Local) (client : Client σ)
    (opts : subCreateOptions) (s : σ)
    (hne : opts.repo ≠ "") (hlen : (strings.Split opts.repo '/').length ≠ 2) :
    (runSubCreate env client opts s).calls = [] ∧
    (runSubCreate env client opts s).state = s ∧
    (runSubCreate env client opts s).stdout = [] ∧
    (∀ parent : IssueRef, resolveParent env opts.parent = .ok parent →
      (runSubCreate env client opts s).err
        = some (fmt.Errorf ("invalid repository format: " ++ opts.repo ++
            " (expected owner/repo)")) ∧
      (fmt.Errorf ("invalid repository format: " ++ opts.repo ++
            " (expected owner/repo)")).Error
        = "invalid repository format: " ++ opts.repo ++ " (expected owner/repo)") := by
  unfold runSubCreate
  cases hres : resolveParent env opts.parent with
  | error e => simp [Run.fail]
  | ok parent =>
    simp [targetRepository_invalid opts.repo parent hne hlen, Run.fail, fmt.Errorf,
      GoError.Error]

theorem runSubCreate_invalid_repo_witness :
    (runSubCreate demo.env demo.client (demo.createOpts "octo/lib/x" true false true) []).err
      = some (fmt.Errorf "invalid repository format: octo/lib/x (expected owner/repo)") :=
  ((runSubCreate_invalid_repo demo.env demo.client (demo.createOpts "octo/lib/x" true false true)
      [] (by decide) (by decide)).2.2.2 ⟨"octo", "app", 10⟩ (by rfl)).1

end cmd

/-! ## Theorems: classification survives wrapping -/

namespace api

/-- C30: for every non-nil error, operation and resource, `IsRateLimited(err)`
    implies `IsRateLimited(WrapError(..., err))`, and `IsNotFound(err)` together
    with not `IsRateLimited(err)` implies `IsNotFound(WrapError(..., err))`. -/
theorem WrapError_keeps_classification (operation resource : String) (err : error)
    (hnil : err ≠ none) :
    (IsRateLimited err = true → IsRateLimited (WrapError operation resource err) = true) ∧
    (IsNotFound err = true → IsRateLimited err = false →
      IsNotFound (WrapError operation resource err) = true) := by
  cases err with
  | none => exact absurd rfl hnil
  | some e =>
    constructor
    · intro h
      have hw : WrapError operation resource (some e)
          = some (GoError.apiError operation resource ErrRateLimited) := by
        simp [WrapError, h]
      rw [hw]
      simp [IsRateLimited, errors.Is, GoError.Is, ErrRateLimited]
    · intro h hrl
      have hw : WrapError operation resource (some e)
          = some (GoError.apiError operation resource ErrNotFound) := by
        simp [WrapError, h, hrl]
      rw [hw]
      simp [IsNotFound, errors.Is, GoError.Is, ErrNotFound]

theorem WrapError_keeps_classification_witness :
    IsRateLimited (WrapError "get" "project" (some (GoError.leaf "RATE_LIMITED"))) = true :=
  (WrapError_keeps_classification "get" "project" (some (GoError.leaf "RATE_LIMITED"))
    (by decide)).1 (by decide)

end api

/-! ## Theorems: sub list JSON -/

namespace cmd

open api

theorem foldl_subListJSONStep_items (subs : List SubIssue) (init : SubListJSONOutput) :
    (subs.foldl subListJSONStep init).SubIssues
      = init.SubIssues ++ subs.map (fun sub =>
          { Number := sub.Number, Title := sub.Title, State := sub.State, URL := sub.URL,
            Repository :=
              if sub.Repository.Owner ≠ "" ∧ sub.Repository.Name ≠ "" then
                sub.Repository.Owner ++ "/" ++ sub.Repository.Name
              else "" }) := by
  induction subs generalizing init with
  | nil => simp
  | cons sub subs ih =>
    rw [List.foldl_cons, ih]
    unfold subListJSONStep
    by_cases h : sub.State = "CLOSED" <;> simp [h]

theorem foldl_subListJSONStep_parent (subs : List SubIssue) (init : SubListJSONOutput) :
    (subs.foldl subListJSONStep init).Parent = init.Parent := by
  induction subs generalizing init with
  | nil => rfl
  | cons sub subs ih =>
    rw [List.foldl_cons, ih]
    unfold subListJSONStep
    by_cases h : sub.State = "CLOSED" <;> simp [h]

/-- C21 on the code: for every list of sub-issues and parent, the document of
    `sub list --json` has the top-level fields "parent", "subIssues" and
    "summary", in place of the "issue" and "children" of the claim and of
    `TestRunSubList_Integration_JSONOutput`; the object under "parent" has
    "number" and "title" and the one under "summary" has "total", "open" and
    "closed". -/
theorem subList_json_fields (subIssues : List SubIssue) (parent : Issue) :
    (outputSubListJSON subIssues parent).toJSON.keys = ["parent", "subIssues", "summary"] ∧
    (outputSubListJSON subIssues parent).toJSON.get? "issue" = none ∧
    (outputSubListJSON subIssues parent).toJSON.get? "children" = none ∧
    ((outputSubListJSON subIssues parent).toJSON.get? "parent").map JSON.keys
      = some ["number", "title"] ∧
    ((outputSubListJSON subIssues parent).toJSON.get? "summary").map JSON.keys
      = some ["total", "open", "closed"] := by
  refine ⟨rfl, ?_, ?_, ?_, ?_⟩ <;>
    simp [SubListJSONOutput.toJSON, JSON.get?, JSON.keys, SubListParent.toJSON,
      SubListSummary.toJSON]

/-- C22: the sub-issue array of `outputSubListJSON` has the length and the order
    of the input; entry i carries the number, title, state and URL of input i
    and the repository "owner/name" when both owner and name are non-empty,
    the empty string otherwise. -/
theorem outputSubListJSON_items (subIssues : List SubIssue) (parent : Issue) :
    (outputSubListJSON subIssues parent).SubIssues
      = subIssues.map (fun sub =>
          { Number := sub.Number, Title := sub.Title, State := sub.State, URL := sub.URL,
            Repository :=
              if sub.Repository.Owner ≠ "" ∧ sub.Repository.Name ≠ "" then
                sub.Repository.Owner ++ "/" ++ sub.Repository.Name
              else "" }) ∧
    (outputSubListJSON subIssues parent).SubIssues.length = subIssues.length := by
  have h := foldl_subListJSONStep_items subIssues
    { Parent := { Number := parent.Number, Title := parent.Title },
      SubIssues := [],
      Summary := { Total := (subIssues.length : Int), Open := 0, Closed := 0 } }
  simp only [List.nil_append] at h
  have h2 : (outputSubListJSON subIssues parent).SubIssues = _ := h
  refine ⟨h2, ?_⟩
  rw [h2, List.length_map]

end cmd

/-! ## Theorems: client headers -/

namespace api

theorem intercalate_go_eq_foldl (sep : String) (rest : List String) (acc : String) :
    String.intercalate.go acc sep rest = rest.foldl (fun result f => result ++ (sep ++ f)) acc := by
  induction rest generalizing acc with
  | nil => rfl
  | cons f rest ih => simp [String.intercalate.go, ih, String.append_assoc]

/-- `joinFeatures` is joining with ",". -/
theorem joinFeatures_eq_intercalate (features : List String) :
    joinFeatures features = String.intercalate "," features := by
  cases features with
  | nil => rfl
  | cons first rest =>
    simp only [joinFeatures, String.intercalate]
    rw [intercalate_go_eq_foldl]

/-- C27: the header map of `NewClientWithOptions` holds "X-Github-Next" exactly
    when a feature preview is enabled, with the enabled feature names in the
    order sub_issues, issue_types joined by single commas, and no other header;
    `NewClient` sends "sub_issues,issue_types"; `joinFeatures` is joining with
    "," and gives "" for the empty list. -/
theorem NewClientWithOptions_headers (opts : ClientOptions) :
    ((NewClientWithOptions.headers opts "X-Github-Next").isSome = true ↔
      (opts.EnableSubIssues = true ∨ opts.EnableIssueTypes = true)) ∧
    NewClientWithOptions.headers opts "X-Github-Next" =
      (if opts.EnableSubIssues = true ∧ opts.EnableIssueTypes = true then
        some "sub_issues,issue_types"
      else if opts.EnableSubIssues = true then some "sub_issues"
      else if opts.EnableIssueTypes = true then some "issue_types"
      else none) ∧
    (∀ key : String, key ≠ "X-Github-Next" → NewClientWithOptions.headers opts key = none) ∧
    NewClient.headers "X-Github-Next" = some "sub_issues,issue_types" ∧
    (∀ features : List String, joinFeatures features = String.intercalate "," features) ∧
    joinFeatures [] = "" := by
  obtain ⟨host, sub, types⟩ := opts
  refine ⟨?_, ?_, ?_, by decide, joinFeatures_eq_intercalate, rfl⟩
  · cases sub <;> cases types <;>
      simp [NewClientWithOptions.headers, NewClientWithOptions.featureHeaders,
        cmd.StringMap.set, cmd.StringMap.empty]
  · cases sub <;> cases types <;>
      simp [NewClientWithOptions.headers, NewClientWithOptions.featureHeaders,
        cmd.StringMap.set, cmd.StringMap.empty, joinFeatures, FeatureSubIssues,
        FeatureIssueTypes]
  · intro key hkey
    cases sub <;> cases types <;>
      simp [NewClientWithOptions.headers, NewClientWithOptions.featureHeaders,
        cmd.StringMap.set, cmd.StringMap.empty, hkey]

end api

/-! ## Theorems: the list table -/

namespace cmd

open api

/-- The three bytes of "...". -/
theorem utf8Bytes_dots : utf8Bytes "..." = [46, 46, 46] := by
  decide

/-- The rows of `outputTable` are the rows of the items with a non-nil issue, in
    order. -/
theorem outputTable_rows (EqualFold : String → String → Bool) (items : List ProjectItem) :
    (outputTable EqualFold items).rows
      = items.filterMap (fun item => item.Issue.map (tableRow EqualFold item)) := by
  have hfold : ∀ (l : List ProjectItem) (init : List TableRow),
      l.foldl (fun rows item =>
        match item.Issue with
        | none => rows
        | some issue => rows ++ [tableRow EqualFold item issue]) init
        = init ++ l.filterMap (fun item => item.Issue.map (tableRow EqualFold item)) := by
    intro l
    induction l with
    | nil => intro init; simp
    | cons item rest ih =>
      intro init
      rw [List.foldl_cons, ih]
      cases h : item.Issue <;> simp [List.filterMap_cons, h]
  unfold outputTable
  by_cases h : items.length = 0
  · have hnil : items = [] := List.length_eq_zero.mp h
    subst hnil
    rfl
  · rw [if_neg h]
    simp only [TableOutput.rows]
    rw [hfold]
    simp

/-- C29: the rows written by `outputTable` are those of the items with a non-nil
    issue, in order, and the title printed for an issue is the issue title
    unchanged when it has at most 50 bytes, and otherwise its first 47 bytes
    followed by "..."; the printed title never exceeds 50 bytes and has exactly
    50 when truncated. -/
theorem outputTable_title (EqualFold : String → String → Bool) (items : List ProjectItem)
    (item : ProjectItem) (issue : Issue) (title : List UInt8) :
    (outputTable EqualFold items).rows.map (fun row => (row.Number, row.Title))
      = items.filterMap (fun item => item.Issue.map (fun issue =>
          (issue.Number,
            if (utf8Bytes issue.Title).length ≤ 50 then utf8Bytes issue.Title
            else (utf8Bytes issue.Title).take 47 ++ utf8Bytes "..."))) ∧
    (∀ row ∈ (outputTable EqualFold items).rows, row.Title.length ≤ 50) ∧
    (items ≠ [] →
      outputTable EqualFold items
        = .table "NUMBER\tTITLE\tSTATUS\tPRIORITY\tASSIGNEES\n"
            (outputTable EqualFold items).rows) ∧
    (tableRow EqualFold item issue).Title = truncateTitle (utf8Bytes issue.Title) ∧
    (title.length ≤ 50 → truncateTitle title = title) ∧
    (50 < title.length →
      truncateTitle title = title.take 47 ++ utf8Bytes "..." ∧
      (truncateTitle title).length = 50) ∧
    (truncateTitle title).length ≤ 50 := by
  have hlen : ∀ t : List UInt8, (truncateTitle t).length ≤ 50 := by
    intro t
    by_cases h : t.length > 50
    · simp only [truncateTitle, if_pos h]
      rw [List.length_append, List.length_take, utf8Bytes_dots]
      simp only [List.length_cons, List.length_nil]
      omega
    · simp only [truncateTitle, if_neg h]
      omega
  refine ⟨?_, ?_, ?_, rfl, ?_, ?_, hlen title⟩
  · rw [outputTable_rows, List.map_filterMap]
    congr 1
    funext it
    cases it.Issue with
    | none => rfl
    | some iss =>
      simp only [Option.map_some', tableRow, truncateTitle]
      by_cases h : (utf8Bytes iss.Title).length > 50
      · have h2 : ¬ (utf8Bytes iss.Title).length ≤ 50 := by omega
        simp [h, h2]
      · have h2 : (utf8Bytes iss.Title).length ≤ 50 := by omega
        simp [h, h2]
  · intro row hrow
    rw [outputTable_rows] at hrow
    simp only [List.mem_filterMap, Option.map_eq_some'] at hrow
    obtain ⟨it, _, iss, _, rfl⟩ := hrow
    exact hlen _
  · intro hne
    have h : ¬ items.length = 0 := by
      simpa [List.length_eq_zero] using hne
    simp [outputTable, h, TableOutput.rows]
  · intro h
    have h2 : ¬ title.length > 50 := by omega
    simp [truncateTitle, h2]
  · intro h
    have h2 : title.length > 50 := h
    simp only [truncateTitle, if_pos h2, true_and]
    rw [List.length_append, List.length_take, utf8Bytes_dots]
    simp only [List.length_cons, List.length_nil]
    omega

/-- An item is kept by `filterByFieldValue` exactly when it is in the input and
    one of its field values matches the name and the value. -/
theorem mem_filterByFieldValue (EqualFold : String → String → Bool)
    (items : List ProjectItem) (fieldName value : String) (item : ProjectItem) :
    item ∈ filterByFieldValue EqualFold items fieldName value ↔
      item ∈ items ∧ ∃ fv ∈ item.FieldValues,
        EqualFold fv.Field fieldName = true ∧ EqualFold fv.Value value = true := by
  unfold filterByFieldValue
  rw [foldl_keep_eq_filter (fun item : ProjectItem =>
    fieldValueMatches EqualFold fieldName value item.FieldValues) items []]
  simp [List.mem_filter, fieldValueMatches_eq_any]

/-- With at most one element satisfying `p`, `find?` returns any element that
    satisfies `p`. -/
theorem find?_of_unique {α : Type} (p : α → Bool) (l : List α) (a : α)
    (huniq : (l.filter p).length ≤ 1) (hmem : a ∈ l) (hp : p a = true) :
    l.find? p = some a := by
  induction l with
  | nil => simp at hmem
  | cons x xs ih =>
    by_cases hx : p x = true
    · simp only [List.filter_cons, hx, if_true, List.length_cons] at huniq
      have hnil : xs.filter p = [] := List.length_eq_zero.mp (by omega)
      rcases List.mem_cons.mp hmem with h | h
      · subst h
        simp [List.find?_cons, hx]
      · have : a ∈ xs.filter p := List.mem_filter.mpr ⟨h, hp⟩
        rw [hnil] at this
        simp at this
    · have hx2 : p x = false := by simpa using hx
      simp only [List.filter_cons, hx2] at huniq
      rcases List.mem_cons.mp hmem with h | h
      · subst h
        rw [hp] at hx2
        cases hx2
      · simp only [List.find?_cons, hx2]
        exact ih (by simpa using huniq) h

/-- C28, as stated, fails: an item with two field values named "Status" is kept
    by the filter for the value of the second one, while `getFieldValue`, and
    so the STATUS column of its row, shows the value of the first. -/
theorem filter_shows_value_counterexample :
    ¬ (∀ (items : List ProjectItem) (f v : String),
        ∀ item ∈ filterByFieldValue demo.asciiEqualFold items f v,
          demo.asciiEqualFold (getFieldValue demo.asciiEqualFold item f) v = true) := by
  intro h
  have h1 := h [demo.item] "Status" "Done" demo.item (by decide)
  revert h1
  decide

/-- An item kept by the filters of `runList` was kept by its status filter, when
    one is given. -/
theorem mem_applyFilters_status (EqualFold : String → String → Bool) (env : ListLocal)
    (cfg : ListConfig) (opts : listOptions) (items : List ProjectItem) (item : ProjectItem)
    (hstatus : opts.status ≠ "")
    (hmem : item ∈ applyFilters EqualFold env cfg opts items) :
    item ∈ filterByFieldValue EqualFold items "Status"
      (env.ResolveFieldValue cfg "status" opts.status) := by
  simp only [applyFilters, if_pos hstatus] at hmem
  by_cases hprio : opts.priority = ""
  · simpa [hprio] using hmem
  · rw [if_pos hprio] at hmem
    exact ((mem_filterByFieldValue EqualFold _ _ _ item).mp hmem).1

/-- Without a priority filter, the items kept by `runList` are those kept by its
    status filter. -/
theorem applyFilters_status_only (EqualFold : String → String → Bool) (env : ListLocal)
    (cfg : ListConfig) (opts : listOptions) (items : List ProjectItem)
    (hstatus : opts.status ≠ "") (hprio : opts.priority = "") :
    applyFilters EqualFold env cfg opts items
      = filterByFieldValue EqualFold items "Status"
          (env.ResolveFieldValue cfg "status" opts.status) := by
  simp [applyFilters, hstatus, hprio]

/-- C28 (amended): for every item list, field name f and value v, each item of
    `filterByFieldValue(items, f, v)` that has at most one field value named f
    up to letter case satisfies `getFieldValue(item, f)` equal to v up to letter
    case.  So, when `list --status X` prints its table, every row is the row of
    a fetched item kept for the resolved value `cfg.ResolveFieldValue("status",
    X)`, its STATUS column is `getFieldValue(item, "Status")`, and that equals
    the resolved value up to letter case when the item has at most one field
    value named Status; without a priority filter every fetched item with an
    issue that has such a field value is printed. -/
theorem filter_shows_value (EqualFold : String → String → Bool) (items : List ProjectItem)
    (f v : String) (item : ProjectItem)
    (hmem : item ∈ filterByFieldValue EqualFold items f v)
    (huniq : (item.FieldValues.filter (fun fv => EqualFold fv.Field f)).length ≤ 1) :
    EqualFold (getFieldValue EqualFold item f) v = true ∧
    (∀ issue : Issue, (tableRow EqualFold item issue).Status
      = getFieldValue EqualFold item "Status") ∧
    (∀ {σ : Type} (env : ListLocal) (client : ListClient σ) (opts : listOptions) (s s1 s2 : σ)
      (cfg : ListConfig) (project : Project) (fetched : List ProjectItem),
      loadListConfig env = .ok cfg →
      client.GetProject cfg.Project.Owner cfg.Project.Number s = (.ok project, s1) →
      client.GetProjectItems project.ID (buildFilter cfg) s1 = (.ok fetched, s2) →
      opts.status ≠ "" → opts.json = false →
      ∃ table, (runList EqualFold env client opts s).output = some (.table table) ∧
        (runList EqualFold env client opts s).err = none ∧
        (∀ row ∈ table.rows, ∃ it ∈ fetched, ∃ issue,
          it.Issue = some issue ∧ row.Number = issue.Number ∧
          row.Status = getFieldValue EqualFold it "Status" ∧
          (∃ fv ∈ it.FieldValues, EqualFold fv.Field "Status" = true ∧
            EqualFold fv.Value (env.ResolveFieldValue cfg "status" opts.status) = true) ∧
          ((it.FieldValues.filter (fun fv => EqualFold fv.Field "Status")).length ≤ 1 →
            EqualFold row.Status (env.ResolveFieldValue cfg "status" opts.status) = true)) ∧
        (opts.priority = "" → ∀ it ∈ fetched, ∀ issue, it.Issue = some issue →
          (∃ fv ∈ it.FieldValues, EqualFold fv.Field "Status" = true ∧
            EqualFold fv.Value (env.ResolveFieldValue cfg "status" opts.status) = true) →
          ∃ row ∈ table.rows, row.Number = issue.Number ∧
            row.Status = getFieldValue EqualFold it "Status")) := by
  have hshow : ∀ (its : List ProjectItem) (g w : String) (it : ProjectItem),
      it ∈ filterByFieldValue EqualFold its g w →
      (it.FieldValues.filter (fun fv => EqualFold fv.Field g)).length ≤ 1 →
      EqualFold (getFieldValue EqualFold it g) w = true := by
    intro its g w it hm hu
    obtain ⟨_, fv, hfv, hname, hval⟩ := (mem_filterByFieldValue EqualFold its g w it).mp hm
    have hfind := find?_of_unique (fun fv : FieldValue => EqualFold fv.Field g)
      it.FieldValues fv hu hfv hname
    simp only [getFieldValue, hfind]
    exact hval
  refine ⟨hshow items f v item hmem huniq, fun _ => rfl, ?_⟩
  intro σ env client opts s s1 s2 cfg project fetched hcfg hproj hitems hstatus hjson
  refine ⟨outputTable EqualFold (applyFilters EqualFold env cfg opts fetched), ?_, ?_, ?_, ?_⟩
  · simp [runList, hcfg, hproj, hitems, hjson]
  · simp [runList, hcfg, hproj, hitems, hjson]
  · intro row hrow
    rw [outputTable_rows] at hrow
    simp only [List.mem_filterMap, Option.map_eq_some'] at hrow
    obtain ⟨it, hit, issue, hissue, rfl⟩ := hrow
    have hkept := mem_applyFilters_status EqualFold env cfg opts fetched it hstatus hit
    obtain ⟨hfetched, hfv⟩ := (mem_filterByFieldValue EqualFold fetched _ _ it).mp hkept
    exact ⟨it, hfetched, issue, hissue, rfl, rfl, hfv,
      fun hu => hshow fetched "Status" _ it hkept hu⟩
  · intro hprio it hit issue hissue hfv
    refine ⟨tableRow EqualFold it issue, ?_, rfl, rfl⟩
    rw [outputTable_rows, applyFilters_status_only EqualFold env cfg opts fetched hstatus hprio]
    simp only [List.mem_filterMap, Option.map_eq_some']
    exact ⟨it, (mem_filterByFieldValue EqualFold fetched _ _ it).mpr ⟨hit, hfv⟩, issue, hissue, rfl⟩

theorem filter_shows_value_witness :
    demo.asciiEqualFold (getFieldValue demo.asciiEqualFold demo.tracked "status") "in progress"
      = true ∧
    ∃ table, (runList demo.asciiEqualFold demo.listEnv demo.listClient
        { status := "in_progress", priority := "", json := false } ()).output
          = some (.table table) ∧
      table.rows.map (fun row => (row.Number, row.Status))
        = [(10, "Backlog"), (15, "In Progress")] :=
  ⟨(filter_shows_value demo.asciiEqualFold [demo.item, demo.tracked] "status" "in progress"
      demo.tracked (by decide) (by decide)).1,
    ⟨_, rfl, by decide⟩⟩

end cmd

/-! ## Theorems: project queries -/

namespace strings

/-- A text contains each of its beginnings. -/
theorem Contains_append_left (pre rest : String) : Contains (pre ++ rest) pre = true := by
  simp only [Contains, decide_eq_true_eq, String.data_append]
  exact (List.prefix_append _ _).isInfix

/-- A text contains each of its endings. -/
theorem Contains_append_right (pre rest : String) : Contains (pre ++ rest) rest = true := by
  simp only [Contains, decide_eq_true_eq, String.data_append]
  exact (List.suffix_append _ _).isInfix

end strings

namespace api

/-- C25: `GetProject` first issues the user-project query; on success the
    project it answered (its ID, number, title, URL and closed flag) is
    returned with owner type "User" after that one query; on failure the
    organization-project query is issued and on success the project it
    answered is returned with owner type "Organization" after two queries; if
    both fail an error containing "failed to get project" is returned and no
    project; at most two queries are ever made. -/
theorem GetProject_fallback {σ : Type} (causes : GoError → GoError → String)
    (gql : GraphQL σ) (owner : String) (number : Int) (s : σ) :
    (∀ (node : ProjectNode) (s1 : σ),
      gql.GetUserProject owner number s = (.ok node, s1) →
      (GetProject causes gql owner number s).result
        = .ok { ID := node.ID, Number := node.Number, Title := node.Title, URL := node.URL,
                Closed := node.Closed, Owner := { Type_ := "User", Login := owner } } ∧
      (GetProject causes gql owner number s).queries = [Query.GetUserProject owner number] ∧
      (GetProject causes gql owner number s).state = s1) ∧
    (∀ (userErr : GoError) (s1 : σ) (node : ProjectNode) (s2 : σ),
      gql.GetUserProject owner number s = (.error userErr, s1) →
      gql.GetOrgProject owner number s1 = (.ok node, s2) →
      (GetProject causes gql owner number s).result
        = .ok { ID := node.ID, Number := node.Number, Title := node.Title, URL := node.URL,
                Closed := node.Closed,
                Owner := { Type_ := "Organization", Login := owner } } ∧
      (GetProject causes gql owner number s).queries
        = [Query.GetUserProject owner number, Query.GetOrgProject owner number] ∧
      (GetProject causes gql owner number s).state = s2) ∧
    (∀ (userErr : GoError) (s1 : σ) (orgErr : GoError) (s2 : σ),
      gql.GetUserProject owner number s = (.error userErr, s1) →
      gql.GetOrgProject owner number s1 = (.error orgErr, s2) →
      (∃ err, (GetProject causes gql owner number s).result = .error err ∧
        strings.Contains err.Error "failed to get project" = true) ∧
      (GetProject causes gql owner number s).queries
        = [Query.GetUserProject owner number, Query.GetOrgProject owner number]) ∧
    (GetProject causes gql owner number s).queries.length ≤ 2 ∧
    (GetProject causes gql owner number s).queries.head?
      = some (Query.GetUserProject owner number) := by
  refine ⟨?_, ?_, ?_, ?_, ?_⟩
  · intro node s1 hu
    simp [GetProject, hu, ProjectNode.toProject]
  · intro userErr s1 node s2 hu ho
    simp [GetProject, hu, ho, ProjectNode.toProject]
  · intro userErr s1 orgErr s2 hu ho
    refine ⟨⟨fmt.Errorf ("failed to get project" ++ causes userErr orgErr), ?_, ?_⟩, ?_⟩
    · simp [GetProject, hu, ho]
    · exact strings.Contains_append_left _ _
    · simp [GetProject, hu, ho]
  · unfold GetProject
    rcases hu : gql.GetUserProject owner number s with ⟨ru, s1⟩
    cases ru with
    | ok node => simp
    | error userErr =>
      simp only
      rcases ho : gql.GetOrgProject owner number s1 with ⟨ro, s2⟩
      cases ro <;> simp
  · unfold GetProject
    rcases hu : gql.GetUserProject owner number s with ⟨ru, s1⟩
    cases ru with
    | ok node => simp
    | error userErr =>
      simp only
      rcases ho : gql.GetOrgProject owner number s1 with ⟨ro, s2⟩
      cases ro <;> simp

/-- No closed project is among the open projects of a listing. -/
theorem openProjects_open (nodes : List ProjectNode) (ownerType login : String) :
    ∀ p ∈ openProjects nodes ownerType login, p.Closed = false := by
  intro p hp
  simp only [openProjects, List.mem_map, List.mem_filter] at hp
  obtain ⟨n, ⟨_, hn⟩, rfl⟩ := hp
  simpa [ProjectNode.toProject] using hn

/-- The open projects of a listing, written out: the nodes that are not closed,
    in order, each with its ID, number, title and URL and the given owner. -/
theorem openProjects_eq (nodes : List ProjectNode) (ownerType login : String) :
    openProjects nodes ownerType login =
      (nodes.filter (fun n => !n.Closed)).map (fun n =>
        { ID := n.ID, Number := n.Number, Title := n.Title, URL := n.URL, Closed := n.Closed,
          Owner := { Type_ := ownerType, Login := login } }) :=
  rfl

/-- C26: `ListProjects` falls back to the organization listing when the user
    listing succeeds with zero open projects, as it does when the user listing
    fails, and returns the organization's open projects: the projects the
    organization listing answered that are not closed, in order, with owner
    type "Organization".  A user listing with an open project is returned
    without a second query.  No closed project is ever in the result. -/
theorem ListProjects_fallback {σ : Type} (causes : Option GoError → GoError → String)
    (gql : GraphQL σ) (owner : String) (s : σ) :
    (∀ (nodes : List ProjectNode) (s1 : σ) (orgNodes : List ProjectNode) (s2 : σ),
      gql.ListUserProjects owner s = (.ok nodes, s1) →
      nodes.filter (fun n => !n.Closed) = [] →
      gql.ListOrgProjects owner s1 = (.ok orgNodes, s2) →
      (ListProjects causes gql owner s).result
        = .ok ((orgNodes.filter (fun n => !n.Closed)).map (fun n =>
            { ID := n.ID, Number := n.Number, Title := n.Title, URL := n.URL,
              Closed := n.Closed,
              Owner := { Type_ := "Organization", Login := owner } })) ∧
      (ListProjects causes gql owner s).queries
        = [Query.ListUserProjects owner, Query.ListOrgProjects owner]) ∧
    (∀ (userErr : GoError) (s1 : σ) (orgNodes : List ProjectNode) (s2 : σ),
      gql.ListUserProjects owner s = (.error userErr, s1) →
      gql.ListOrgProjects owner s1 = (.ok orgNodes, s2) →
      (ListProjects causes gql owner s).result
        = .ok ((orgNodes.filter (fun n => !n.Closed)).map (fun n =>
            { ID := n.ID, Number := n.Number, Title := n.Title, URL := n.URL,
              Closed := n.Closed,
              Owner := { Type_ := "Organization", Login := owner } })) ∧
      (ListProjects causes gql owner s).queries
        = [Query.ListUserProjects owner, Query.ListOrgProjects owner]) ∧
    (∀ (nodes : List ProjectNode) (s1 : σ),
      gql.ListUserProjects owner s = (.ok nodes, s1) →
      nodes.filter (fun n => !n.Closed) ≠ [] →
      (ListProjects causes gql owner s).result
        = .ok ((nodes.filter (fun n => !n.Closed)).map (fun n =>
            { ID := n.ID, Number := n.Number, Title := n.Title, URL := n.URL,
              Closed := n.Closed, Owner := { Type_ := "User", Login := owner } })) ∧
      (ListProjects causes gql owner s).queries = [Query.ListUserProjects owner]) ∧
    (∀ projects : List Project, (ListProjects causes gql owner s).result = .ok projects →
      ∀ p ∈ projects, p.Closed = false) := by
  refine ⟨?_, ?_, ?_, ?_⟩
  · intro nodes s1 orgNodes s2 hu hnone ho
    simp [ListProjects, hu, ho, openProjects, hnone, ProjectNode.toProject]
  · intro userErr s1 orgNodes s2 hu ho
    simp [ListProjects, hu, ho, openProjects, ProjectNode.toProject]
  · intro nodes s1 hu hsome
    have hlen : (openProjects nodes "User" owner).length > 0 := by
      rw [openProjects_eq, List.length_map]
      exact List.length_pos.mpr hsome
    rw [openProjects_eq] at hlen
    simp only [ListProjects, hu, openProjects_eq, if_pos hlen, and_self]
  · intro projects hres
    unfold ListProjects at hres
    rcases hu : gql.ListUserProjects owner s with ⟨ru, s1⟩
    rw [hu] at hres
    rcases ho : gql.ListOrgProjects owner s1 with ⟨ro, s2⟩
    cases ru with
    | ok nodes =>
      simp only at hres
      split at hres
      · injection hres with hres
        subst hres
        exact openProjects_open nodes "User" owner
      · simp only [ho] at hres
        cases ro with
        | ok orgNodes =>
          injection hres with hres
          subst hres
          exact openProjects_open orgNodes "Organization" owner
        | error e => cases hres
    | error userErr =>
      simp only [ho] at hres
      cases ro with
      | ok orgNodes =>
        injection hres with hres
        subst hres
        exact openProjects_open orgNodes "Organization" owner
      | error e => cases hres

/-- The page loop, started anywhere, on a remote answering with `pages`: with
    enough fuel it returns what was collected before followed by the kept items
    of the pages in order, after one query per page. -/
theorem collectItems_pages {σ : Type} (gql : GraphQL σ) (projectID : String)
    (filter : Option ProjectItemsFilter) (pages : List (Page ProjectItem)) :
    ∀ (fuel : Nat) (cursor : Option String) (s s' : σ) (items : List ProjectItem)
      (queries : List Query),
      AnswersPages gql projectID cursor s pages s' → pages.length ≤ fuel →
      collectItems gql projectID filter fuel cursor s items queries =
        some { result := .ok (items ++ pages.flatMap (fun p => p.Nodes.filter (keepItem filter))),
               queries := queries ++
                 (cursor :: pages.dropLast.map (fun p => some p.EndCursor)).map
                   (Query.GetProjectItems projectID),
               state := s' } := by
  induction pages with
  | nil => intro fuel cursor s s' items queries h; exact absurd h (by simp [AnswersPages])
  | cons page rest ih =>
    intro fuel cursor s s' items queries h hfuel
    cases fuel with
    | zero => simp at hfuel
    | succ fuel =>
      cases rest with
      | nil =>
        obtain ⟨hq, hlast⟩ := h
        simp [collectItems, hq, hlast]
      | cons next rest =>
        obtain ⟨s1, hq, hnext, hrest⟩ := h
        have hlen : (next :: rest).length ≤ fuel := by
          simp only [List.length_cons] at hfuel ⊢
          omega
        simp only [collectItems, hq, hnext, if_true]
        rw [ih fuel (some page.EndCursor) s1 s' _ _ hrest hlen]
        simp [List.append_assoc]

/-- C23: when the remote answers the successive `GetProjectItems` queries with
    pages P1..Pn (`HasNextPage` on all but Pn), `GetProjectItems` (given fuel
    for n queries) returns the kept items of all pages concatenated in page
    order, after exactly n queries, the first with an absent cursor and each
    later one with the `EndCursor` of the page before. -/
theorem GetProjectItems_pages {σ : Type} (gql : GraphQL σ) (projectID : String)
    (filter : Option ProjectItemsFilter) (pages : List (Page ProjectItem)) (fuel : Nat)
    (s s' : σ)
    (hpages : AnswersPages gql projectID none s pages s') (hfuel : pages.length ≤ fuel) :
    GetProjectItems gql projectID filter fuel s =
      some { result := .ok (pages.flatMap (fun p => p.Nodes.filter (keepItem filter))),
             queries := (pageCursors pages).map (Query.GetProjectItems projectID),
             state := s' } ∧
    (pageCursors pages).length = pages.length ∧
    pageCursors pages = none :: pages.dropLast.map (fun p => some p.EndCursor) := by
  refine ⟨?_, ?_, rfl⟩
  · unfold GetProjectItems
    rw [collectItems_pages gql projectID filter pages fuel none s s' [] [] hpages hfuel]
    simp [pageCursors]
  · cases pages with
    | nil => exact absurd hpages (by simp [AnswersPages])
    | cons page rest => simp [pageCursors]

theorem GetProjectItems_pages_witness :
    GetProjectItems demo.scripted "proj-id" (some { Repository := "octo/app" }) 5
        [.ok demo.page1, .ok demo.page2] =
      some { result := .ok [demo.projectItem 1, demo.projectItem 2, demo.projectItem 3],
             queries := [Query.GetProjectItems "proj-id" none,
                         Query.GetProjectItems "proj-id" (some "cursor-page-1")],
             state := [] } :=
  (GetProjectItems_pages demo.scripted "proj-id" (some { Repository := "octo/app" })
    [demo.page1, demo.page2] 5 [.ok demo.page1, .ok demo.page2] []
    ⟨[.ok demo.page2], rfl, rfl, rfl, rfl⟩ (by decide)).1

/-- The page loop, started anywhere, on a remote that fails after `pages`: with
    enough fuel it returns the wrapped error of the failing query. -/
theorem collectItems_fails {σ : Type} (gql : GraphQL σ) (projectID : String)
    (filter : Option ProjectItemsFilter) (err : GoError) (pages : List (Page ProjectItem)) :
    ∀ (fuel : Nat) (cursor : Option String) (s s' : σ) (items : List ProjectItem)
      (queries : List Query),
      FailsAfterPages gql projectID cursor s pages err s' → pages.length + 1 ≤ fuel →
      ∃ qs, collectItems gql projectID filter fuel cursor s items queries =
        some { result := .error (fmt.Errorf_w "failed to get project items: " err),
               queries := qs, state := s' } ∧
        qs.length = queries.length + pages.length + 1 := by
  induction pages with
  | nil =>
    intro fuel cursor s s' items queries h hfuel
    cases fuel with
    | zero => simp at hfuel
    | succ fuel =>
      have hq : gql.GetProjectItems projectID cursor s = (.error err, s') := h
      exact ⟨queries ++ [Query.GetProjectItems projectID cursor],
        by simp [collectItems, hq], by simp⟩
  | cons page rest ih =>
    intro fuel cursor s s' items queries h hfuel
    cases fuel with
    | zero => simp at hfuel
    | succ fuel =>
      obtain ⟨s1, hq, hnext, hrest⟩ := h
      have hlen : rest.length + 1 ≤ fuel := by
        simp only [List.length_cons] at hfuel
        omega
      obtain ⟨qs, hrun, hqs⟩ := ih fuel (some page.EndCursor) s1 s'
        (items ++ page.Nodes.filter (keepItem filter))
        (queries ++ [Query.GetProjectItems projectID cursor]) hrest hlen
      refine ⟨qs, ?_, ?_⟩
      · simp only [collectItems, hq, hnext, if_true]
        exact hrun
      · rw [hqs]
        simp only [List.length_append, List.length_cons, List.length_nil]
        omega

/-- C24: when the query for a page fails, also after earlier pages succeeded,
    `GetProjectItems` (given fuel for the queries made) returns an error that
    carries the failing query's message, and no items: the result is the Go
    return `(nil, err)`. -/
theorem GetProjectItems_error {σ : Type} (gql : GraphQL σ) (projectID : String)
    (filter : Option ProjectItemsFilter) (pages : List (Page ProjectItem)) (err : GoError)
    (fuel : Nat) (s s' : σ)
    (hfail : FailsAfterPages gql projectID none s pages err s')
    (hfuel : pages.length + 1 ≤ fuel) :
    (∃ qs, GetProjectItems gql projectID filter fuel s =
        some { result := .error (fmt.Errorf_w "failed to get project items: " err),
               queries := qs, state := s' } ∧
      qs.length = pages.length + 1) ∧
    strings.Contains (fmt.Errorf_w "failed to get project items: " err).Error err.Error = true ∧
    strings.Contains (fmt.Errorf_w "failed to get project items: " err).Error
      "failed to get project items" = true ∧
    (fmt.Errorf_w "failed to get project items: " err).Unwrap = some err := by
  refine ⟨?_, strings.Contains_append_right _ _, ?_, rfl⟩
  · obtain ⟨qs, hrun, hqs⟩ :=
      collectItems_fails gql projectID filter err pages fuel none s s' [] [] hfail hfuel
    exact ⟨qs, hrun, by simpa using hqs⟩
  · have h : (fmt.Errorf_w "failed to get project items: " err).Error
        = "failed to get project items" ++ (": " ++ err.Error) := by
      simp only [fmt.Errorf_w, GoError.Error]
      rw [← String.append_assoc]
      rfl
    rw [h]
    exact strings.Contains_append_left _ _

theorem GetProjectItems_error_witness :
    ∃ qs, GetProjectItems demo.scripted "proj-id" none 5
        [.ok demo.page1, .error (GoError.leaf "API error on second page")] =
      some { result := .error (fmt.Errorf_w "failed to get project items: "
                (GoError.leaf "API error on second page")),
             queries := qs, state := [] } ∧
      qs.length = 2 :=
  (GetProjectItems_error demo.scripted "proj-id" none [demo.page1]
    (GoError.leaf "API error on second page") 5
    [.ok demo.page1, .error (GoError.leaf "API error on second page")] []
    ⟨[.error (GoError.leaf "API error on second page")], rfl, rfl, rfl⟩ (by decide)).1

end api

end GhPmu
